import Mathlib

/-!
# openvpn-client: access-control synchronisation engine

A shallow embedding of the Go sources of the repository
(`internal/utils`, `internal/firewall`, `internal/api`, `internal/config`, `cmd/connect`,
`cmd/disconnect`, `cmd/firewall`) together with the properties proved about them.

Conventions of the embedding.

* A Go `string` is a Lean `String`; every string the program handles is decoded from
  JSON or read from configuration, hence valid UTF-8, and on valid UTF-8 the byte order
  Go compares strings by is the code-point order of the character lists.
* A Go `error` is its message (`GoError`); a `(T, error)` result is a pair whose second
  component is `none` for a `nil` error, and a `(*T, error)` result, whose pointer is
  `nil` exactly when the error is not, is an `Except`.
* The parts of Go's standard library the code calls are embedded as far as the claims
  reach into them: the dotted-decimal IPv4 half of `net`/`net/netip` is embedded in full,
  the IPv6 half is a parameter (`IPv6Lib`); the HTTP transport, `encoding/json` and the
  other library calls of the client and the commands are parameters (`Env`, `Runtime`).
* A command is a function from what the process is given (arguments, environment
  variables, the loaded configuration, the files on disk) to what it leaves (exit status,
  files, requests sent, commands run); a file operation fails when the operating system
  refuses it (`FileSystem`).
-/

namespace OpenVPNClient

/-- A Go `error` value, represented by its message. -/
abbrev GoError := String

/-! ## Package `net` of the Go standard library -/

/-- The IPv6 half of `net/netip`, which the repository reaches only through
`net.ParseIP` and `net.ParseCIDR`. -/
structure IPv6Lib where
  /-- The function `netip.parseIPv6`: the sixteen address bytes and the zone. -/
  parseIPv6 : List Char → Option (List Nat × String)
  /-- The function `netip.Addr.string6`, for sixteen bytes that are not IPv4-mapped. -/
  string6 : List Nat → String

/-- An instance of the IPv6 half that accepts no IPv6 literal, for evaluating the
definitions at IPv4 inputs, where the IPv6 half is never reached. -/
def ipv4Only : IPv6Lib where
  parseIPv6 := fun _ => none
  string6 := fun _ => ""

/-- A parsed `netip.Addr`: four bytes, or sixteen bytes and a zone. -/
inductive Addr where
  | v4 (fields : List Nat)
  | v6 (bytes : List Nat) (zone : String)
deriving DecidableEq, Repr

/-- The loop of `netip.parseIPv4Fields`. The index `i` of the Go loop is kept as the unread
suffix `s[i:]`; `prev` is `s[i-1]` (`none` when `i == 0`), and `i == len(s)-1` holds exactly
when nothing follows the current byte. -/
def parseIPv4Fields (prev : Option Char) : List Char → (val pos digLen : Nat) →
    (fields : List Nat) → Option (List Nat)
  | [], val, pos, _, fields => if pos < 3 then none else some (fields.set 3 val)
  | c :: rest, val, pos, digLen, fields =>
    if '0' ≤ c ∧ c ≤ '9' then
      if digLen = 1 ∧ val = 0 then none
      else
        let val1 := val * 10 + c.toNat - '0'.toNat
        if val1 > 255 then none
        else parseIPv4Fields (some c) rest val1 pos (digLen + 1) fields
    else if c = '.' then
      if prev = none ∨ rest = [] ∨ prev = some '.' then none
      else if pos = 3 then none
      else parseIPv4Fields (some c) rest 0 (pos + 1) 0 (fields.set pos val)
    else none

/-- The function `netip.parseIPv4`. -/
def parseIPv4 (s : List Char) : Option Addr :=
  (parseIPv4Fields none s 0 0 0 [0, 0, 0, 0]).map Addr.v4

/-- The dispatch loop of `netip.ParseAddr` over the bytes of `s`: the first of `.`, `:`
and `%` decides how the whole of `s` is parsed. -/
def ParseAddr.scan (lib : IPv6Lib) (s : List Char) : List Char → Option Addr
  | [] => none
  | c :: rest =>
    if c = '.' then parseIPv4 s
    else if c = ':' then (lib.parseIPv6 s).map (fun p => Addr.v6 p.1 p.2)
    else if c = '%' then none
    else ParseAddr.scan lib s rest

/-- The function `netip.ParseAddr`. -/
def ParseAddr (lib : IPv6Lib) (s : List Char) : Option Addr :=
  ParseAddr.scan lib s s

/-- The twelve bytes `v4InV6Prefix` that precede an IPv4 address mapped into IPv6. -/
def v4InV6Pfx : List Nat := [0, 0, 0, 0, 0, 0, 0, 0, 0, 0, 255, 255]

/-- The method `netip.Addr.As16`. -/
def Addr.As16 : Addr → List Nat
  | .v4 fields => v4InV6Pfx ++ fields
  | .v6 bytes _ => bytes

/-- The method `netip.Addr.Zone`. -/
def Addr.Zone : Addr → String
  | .v4 _ => ""
  | .v6 _ zone => zone

/-- The method `netip.Addr.BitLen`. -/
def Addr.BitLen : Addr → Nat
  | .v4 _ => 32
  | .v6 _ _ => 128

/-- The function `net.ParseIP`: the sixteen-byte form of the address, `none` for Go's
`nil`. -/
def ParseIP (lib : IPv6Lib) (s : String) : Option (List Nat) :=
  match ParseAddr lib s.data with
  | some ip => if ip.Zone ≠ "" then none else some ip.As16
  | none => none

/-- The loop of `net.dtoi`: decimal digits of `s` accumulated into `n`, `i` counting them;
the result is `(n, i, ok)`, and a value reaching `big = 0xFFFFFF` stops the loop. -/
def dtoi.loop : List Char → (n i : Nat) → Nat × Nat × Bool
  | [], n, i => if i = 0 then (0, 0, false) else (n, i, true)
  | c :: rest, n, i =>
    if '0' ≤ c ∧ c ≤ '9' then
      let n1 := n * 10 + (c.toNat - '0'.toNat)
      if n1 ≥ 0xFFFFFF then (0xFFFFFF, i, false) else dtoi.loop rest n1 (i + 1)
    else if i = 0 then (0, 0, false) else (n, i, true)

/-- The function `net.dtoi`. -/
def dtoi (s : List Char) : Nat × Nat × Bool := dtoi.loop s 0 0

/-- The function `net.CIDRMask`, byte by byte: `left` bytes remain to be produced and `n`
one bits remain to be placed. -/
def CIDRMask.fill : (left : Nat) → (n : Nat) → List Nat
  | 0, _ => []
  | left + 1, n =>
    if n ≥ 8 then 0xff :: CIDRMask.fill left (n - 8)
    else (0xff - 0xff >>> n) :: CIDRMask.fill left 0

/-- The function `net.CIDRMask`; `[]` is Go's `nil`. -/
def CIDRMask (ones bits : Nat) : List Nat :=
  if bits ≠ 32 ∧ bits ≠ 128 then []
  else if ones > bits then []
  else CIDRMask.fill (bits / 8) ones

/-- The method `net.IP.Mask`; `[]` is Go's `nil`. -/
def IP.Mask (ip mask : List Nat) : List Nat :=
  let mask1 :=
    if mask.length = 16 ∧ ip.length = 4 ∧ (mask.take 12).all (· = 0xff) then mask.drop 12
    else mask
  let ip1 :=
    if mask1.length = 4 ∧ ip.length = 16 ∧ ip.take 12 = v4InV6Pfx then ip.drop 12 else ip
  if ip1.length ≠ mask1.length then []
  else List.zipWith (· &&& ·) ip1 mask1

/-- The result `*net.IPNet` of `net.ParseCIDR`. -/
structure IPNet where
  IP : List Nat
  Mask : List Nat
deriving DecidableEq, Repr

/-- The function `net.ParseCIDR`: the address, the network, and the error. -/
def ParseCIDR (lib : IPv6Lib) (s : String) : Except GoError (List Nat × IPNet) :=
  let perr : GoError := "invalid CIDR address: " ++ s
  match s.data.span (· ≠ '/') with
  | (_, []) => .error perr
  | (addr, _ :: mask) =>
    match ParseAddr lib addr with
    | none => .error perr
    | some ipAddr =>
      if ipAddr.Zone ≠ "" then .error perr
      else
        let (n, i, ok) := dtoi mask
        if !ok ∨ i ≠ mask.length ∨ n > ipAddr.BitLen then .error perr
        else
          let m := CIDRMask n ipAddr.BitLen
          let addr16 := ipAddr.As16
          .ok (addr16, { IP := IP.Mask addr16 m, Mask := m })

/-- The function `netip.appendDecimal`: a byte in decimal, without leading zeros. -/
def appendDecimal (x : Nat) : List Char :=
  (if x ≥ 100 then [Char.ofNat (48 + x / 100)] else []) ++
  (if x ≥ 10 then [Char.ofNat (48 + x / 10 % 10)] else []) ++
  [Char.ofNat (48 + x % 10)]

/-- The method `netip.Addr.string4`: dotted decimal. -/
def string4 (ip : List Nat) : String :=
  ⟨appendDecimal (ip.getD 0 0) ++ '.' :: appendDecimal (ip.getD 1 0) ++
    '.' :: appendDecimal (ip.getD 2 0) ++ '.' :: appendDecimal (ip.getD 3 0)⟩

/-- The method `net.IP.To4`; `none` is Go's `nil`. -/
def IP.To4 (ip : List Nat) : Option (List Nat) :=
  if ip.length = 4 then some ip
  else if ip.length = 16 ∧ (ip.take 10).all (· = 0) ∧ ip.getD 10 0 = 0xff ∧
      ip.getD 11 0 = 0xff then some (ip.drop 12)
  else none

/-- The function `net.hexString`: two lower-case hexadecimal digits per byte. -/
def hexString (b : List Nat) : String :=
  ⟨b.flatMap (fun x => [(Nat.digitChar (x / 16)), (Nat.digitChar (x % 16))])⟩

/-- The method `net.IP.String`. -/
def IP.String (lib : IPv6Lib) (ip : List Nat) : String :=
  if ip.length = 0 then "<nil>"
  else if ip.length ≠ 4 ∧ ip.length ≠ 16 then "?" ++ hexString ip
  else
    match IP.To4 ip with
    | some p4 => string4 p4
    | none => lib.string6 ip

/-! ## Package `internal/utils` -/

/-- The function `utils.CIDRToNetmask` of `internal/utils/cidr.go`. -/
def CIDRToNetmask (lib : IPv6Lib) (cidr : String) : String × Option GoError :=
  if ¬ cidr.data.contains '/' then
    match ParseIP lib cidr with
    | none => ("", some ("invalid IP: " ++ cidr))
    | some _ => (cidr ++ " 255.255.255.255", none)
  else
    match ParseCIDR lib cidr with
    | .error err => ("", some err)
    | .ok (_, ipNet) =>
      let ip := IP.String lib ipNet.IP
      let mask := IP.String lib ipNet.Mask
      (ip ++ " " ++ mask, none)

/-- The function `utils.IsDefaultRoute` of `internal/utils/cidr.go`. -/
def IsDefaultRoute (cidr : String) : Bool :=
  cidr == "0.0.0.0/0" || cidr == "0/0" || cidr == "::/0"

/-! ## Package `sort` and `strings` of the Go standard library -/

/-- Go's order `a <= b` on strings: lexicographic on bytes, which on valid UTF-8 is the
lexicographic order of the character lists. -/
def goStringLE (a b : String) : Prop := a.data ≤ b.data

instance goStringLE.decidable : DecidableRel goStringLE :=
  fun a b => inferInstanceAs (Decidable (a.data ≤ b.data))

instance goStringLE.isTotal : IsTotal String goStringLE :=
  ⟨fun a b => le_total a.data b.data⟩

instance goStringLE.isTrans : IsTrans String goStringLE :=
  ⟨fun _ _ _ hab hbc => le_trans hab hbc⟩

instance goStringLE.isAntisymm : IsAntisymm String goStringLE :=
  ⟨fun _ _ hab hba => String.ext (le_antisymm hab hba)⟩

/-- The function `sort.Strings`: the ascending rearrangement of the slice. Go sorts in
place; the embedding returns the sorted contents, which is all the callers read. -/
def sortStrings (l : List String) : List String := l.insertionSort goStringLE

/-! ## Package `internal/api`: wire types (`types.go`) -/

/-- The struct `api.UserResponse`; the two optional times are kept as their text. -/
structure UserResponse where
  ID : String
  Username : String
  FirstName : String
  LastName : String
  Email : String
  Role : String
  IsActive : Bool
  ValidFrom : Option String
  ValidTo : Option String
  VpnIP : String
deriving DecidableEq, Repr

/-- The struct `api.UserListResponse`. -/
structure UserListResponse where
  Users : List UserResponse
  Total : Int
  Page : Int
  PageSize : Int
  TotalPages : Int
deriving DecidableEq, Repr

/-- The struct `api.Network`. -/
structure Network where
  ID : String
  Name : String
  CIDR : String
  Description : String
deriving DecidableEq, Repr

/-- The struct `api.GroupWithNetworks`. -/
structure GroupWithNetworks where
  ID : String
  Name : String
  Description : String
  Networks : List Network
deriving DecidableEq, Repr

/-- The struct `api.GroupsResponse`. -/
structure GroupsResponse where
  Groups : List GroupWithNetworks
deriving DecidableEq, Repr

/-- The struct `api.ErrorResponse`. -/
structure ErrorResponse where
  Error : String
  Message : String
deriving DecidableEq, Repr

/-- The struct `api.VpnUsersResponse`. -/
structure VpnUsersResponse where
  Users : List UserResponse
deriving DecidableEq, Repr

/-- The struct `api.RoutesResponse`. -/
structure RoutesResponse where
  Routes : List Network
deriving DecidableEq, Repr

/-! ## Package `internal/api`: the client (`client.go`) -/

/-- An `http.Request` as `doRequest` builds it. -/
structure Request where
  Method : String
  URL : String
  Header : List (String × String)
  Body : Option String
deriving DecidableEq, Repr

/-- The part of an `http.Response` the client reads. -/
structure Response where
  StatusCode : Nat
  Body : String
deriving DecidableEq, Repr

/-- A Go `map[string]Network`: its entries, no key twice. -/
abbrev NetworkMap := List (String × Network)

/-- What the client reaches outside the repository: the HTTP transport with the directory
service behind it, the JSON decoders of `encoding/json`, one per target type, and the order
in which the Go runtime ranges over a map, which visits each entry once. -/
structure Env where
  /-- The method `http.Client.Do`; building the request is counted in. -/
  Do : Request → Except GoError Response
  /-- The call `json.NewDecoder(body).Decode` into a `UserListResponse`. -/
  decodeUserList : String → Except GoError UserListResponse
  /-- The call `json.NewDecoder(body).Decode` into a `VpnUsersResponse`. -/
  decodeUsers : String → Except GoError VpnUsersResponse
  /-- The call `json.NewDecoder(body).Decode` into a `RoutesResponse`. -/
  decodeRoutes : String → Except GoError RoutesResponse
  /-- The call `json.NewDecoder(body).Decode` into a `GroupsResponse`. -/
  decodeGroups : String → Except GoError GroupsResponse
  /-- The call `json.Unmarshal` into an `ErrorResponse`. -/
  decodeError : String → Except GoError ErrorResponse
  /-- The order of `for _, n := range networkMap`. -/
  rangeOrder : NetworkMap → NetworkMap
  /-- Ranging over a map visits every entry exactly once. -/
  rangeOrder_perm : ∀ m, (rangeOrder m).Perm m

/-- The struct `api.Client`; its `httpClient` is `Env.Do`. -/
structure Client where
  baseURL : String
  token : String
  apiToken : String
deriving DecidableEq, Repr

/-- The request `Client.doRequest` builds; `body` is the marshalled JSON, `none` for a
`nil` body. -/
def Client.newRequest (c : Client) (method path : String) (body : Option String)
    (auth : Bool) : Request :=
  { Method := method
    URL := c.baseURL ++ path
    Header := [("Content-Type", "application/json")] ++
      (if auth then
        (if c.apiToken ≠ "" then [("X-VPN-Token", c.apiToken)]
         else if c.token ≠ "" then [("Authorization", "Bearer " ++ c.token)]
         else [])
       else [])
    Body := body }

/-- The method `Client.doRequest`. -/
def Client.doRequest (env : Env) (c : Client) (method path : String) (body : Option String)
    (auth : Bool) : Except GoError Response :=
  env.Do (c.newRequest method path body auth)

/-- The method `Client.parseError`. -/
def Client.parseError (env : Env) (_c : Client) (resp : Response) : GoError :=
  let raw : GoError :=
    "API error: " ++ resp.Body ++ " (status " ++ toString resp.StatusCode ++ ")"
  match env.decodeError resp.Body with
  | .ok errResp =>
    if errResp.Message ≠ "" then errResp.Error ++ ": " ++ errResp.Message else raw
  | .error _ => raw

/-- The assignment `networkMap[k] = v`. -/
def mapSet : NetworkMap → String → Network → NetworkMap
  | [], k, v => [(k, v)]
  | (k1, v1) :: m, k, v => if k1 = k then (k, v) :: m else (k1, v1) :: mapSet m k v

/-- The nested loop of `GetUserRoutes` that flattens the networks of all groups into
`networkMap`, keyed by CIDR. -/
def flattenGroups (groups : List GroupWithNetworks) : NetworkMap :=
  groups.foldl (fun m group =>
    group.Networks.foldl (fun m1 network => mapSet m1 network.CIDR network) m) []

/-- The method `Client.GetUserRoutes`. -/
def Client.GetUserRoutes (env : Env) (c : Client) (userID : String) :
    List Network × Option GoError :=
  let endpoint :=
    if c.apiToken = "" then "/api/v1/users/" ++ userID ++ "/groups"
    else "/api/v1/vpn-auth/users/" ++ userID ++ "/routes"
  match c.doRequest env "GET" endpoint none true with
  | .error err => ([], some ("get routes request failed: " ++ err))
  | .ok resp =>
    if resp.StatusCode ≠ 200 then ([], some (c.parseError env resp))
    else if c.apiToken ≠ "" then
      match env.decodeRoutes resp.Body with
      | .error err => ([], some ("failed to decode routes: " ++ err))
      | .ok routesResp => (routesResp.Routes, none)
    else
      match env.decodeGroups resp.Body with
      | .error err => ([], some ("failed to decode groups: " ++ err))
      | .ok groupsResp =>
        let networkMap := flattenGroups groupsResp.Groups
        ((env.rangeOrder networkMap).map (fun kv => kv.2), none)

/-- The path and query of one page of the legacy listing: `url.Values.Encode` writes the
three parameters sorted by key. -/
def usersPagePath (page : Nat) : String :=
  "/api/v1/users?" ++ "is_active=true&page=" ++ toString page ++ "&page_size=" ++ toString 100

/-- What `GetAllActiveUsers` returns and does: the users, the error, and the requests it
sent, in order. -/
structure ActiveUsersResult where
  users : List UserResponse
  err : Option GoError
  sent : List Request
deriving DecidableEq, Repr

/-- The `for` loop of the legacy branch of `GetAllActiveUsers`. One unit of `fuel` is one
iteration; `none` means the fuel ran out before the loop ended. No status code is looked
at. The comparison `page >= listResp.TotalPages` is on Go `int`s: `page` is only
incremented below a `TotalPages` that fits an `int`, so it never wraps. -/
def Client.GetAllActiveUsers.loop (env : Env) (c : Client) :
    (fuel : Nat) → (page : Nat) → (allUsers : List UserResponse) → (sent : List Request) →
    Option ActiveUsersResult
  | 0, _, _, _ => none
  | fuel + 1, page, allUsers, sent =>
    let sent1 := sent ++ [c.newRequest "GET" (usersPagePath page) none true]
    match c.doRequest env "GET" (usersPagePath page) none true with
    | .error err =>
      some { users := [], sent := sent1
             err := some ("get users page " ++ toString page ++ " failed: " ++ err) }
    | .ok resp =>
      match env.decodeUserList resp.Body with
      | .error err =>
        some { users := [], sent := sent1
               err := some ("failed to decode users page " ++ toString page ++ ": " ++ err) }
      | .ok listResp =>
        let allUsers1 := allUsers ++ listResp.Users
        if (page : Int) ≥ listResp.TotalPages then
          some { users := allUsers1, err := none, sent := sent1 }
        else Client.GetAllActiveUsers.loop env c fuel (page + 1) allUsers1 sent1

/-- The method `Client.GetAllActiveUsers`. -/
def Client.GetAllActiveUsers (env : Env) (c : Client) (fuel : Nat) :
    Option ActiveUsersResult :=
  if c.apiToken ≠ "" then
    let sent := [c.newRequest "GET" "/api/v1/vpn-auth/users" none true]
    match c.doRequest env "GET" "/api/v1/vpn-auth/users" none true with
    | .error err =>
      some { users := [], err := some ("get users request failed: " ++ err), sent := sent }
    | .ok resp =>
      if resp.StatusCode ≠ 200 then
        some { users := [], err := some (c.parseError env resp), sent := sent }
      else
        match env.decodeUsers resp.Body with
        | .error err =>
          some { users := [], err := some ("failed to decode users: " ++ err), sent := sent }
        | .ok usersResp => some { users := usersResp.Users, err := none, sent := sent }
  else Client.GetAllActiveUsers.loop env c fuel 1 [] []

/-! ## Package `internal/firewall` -/

/-- The struct `firewall.UserWithNetworks`. -/
structure UserWithNetworks where
  Username : String
  VpnIP : String
  Networks : List String
deriving DecidableEq, Repr

/-- The inner loop of `CollectUserNetworks`: the CIDRs of the routes, without the two
strings the loop skips. -/
def collectNetworks (routes : List Network) : List String :=
  routes.foldl (fun networks route =>
    if route.CIDR = "0.0.0.0/0" ∨ route.CIDR = "0/0" then networks
    else networks ++ [route.CIDR]) []

/-- The function `firewall.CollectUserNetworks` of `firewall.go`. -/
def CollectUserNetworks (env : Env) (client : Client) (users : List UserResponse) :
    List UserWithNetworks × Option GoError :=
  let result := users.foldl (fun result user =>
    if user.VpnIP = "" then result
    else
      match client.GetUserRoutes env user.ID with
      | (_, some _) => result
      | (routes, none) =>
        let networks := collectNetworks routes
        if networks.length > 0 then
          result ++ [{ Username := user.Username, VpnIP := user.VpnIP, Networks := networks }]
        else result) []
  (result, none)

/-- The struct `config.NFTablesConfig`. -/
structure NFTablesConfig where
  RulesFile : String
  ReloadCommand : String
deriving DecidableEq, Repr

/-- The struct `config.IPTablesConfig`. -/
structure IPTablesConfig where
  ChainName : String
  RulesFile : String
  ReloadCommand : String
deriving DecidableEq, Repr

/-- The struct `firewall.NFTables`. -/
structure NFTables where
  rulesFile : String
  reloadCommand : String
deriving DecidableEq, Repr

/-- The struct `firewall.IPTables`. -/
structure IPTables where
  chainName : String
  rulesFile : String
  reloadCommand : String
deriving DecidableEq, Repr

/-- The constant `defaultChainName`. -/
def defaultChainName : String := "VPN_USERS"

/-- The function `firewall.NewNFTables`. -/
def NewNFTables (cfg : NFTablesConfig) : NFTables :=
  { rulesFile := cfg.RulesFile, reloadCommand := cfg.ReloadCommand }

/-- The function `firewall.NewIPTables`. -/
def NewIPTables (cfg : IPTablesConfig) : IPTables :=
  let chainName := if cfg.ChainName = "" then defaultChainName else cfg.ChainName
  { chainName := chainName, rulesFile := cfg.RulesFile, reloadCommand := cfg.ReloadCommand }

/-- The method `NFTables.GenerateRules`: the `strings.Builder` is the accumulated string.
The users' `Networks` slices are taken not to share memory, as `CollectUserNetworks`
builds them. -/
def NFTables.GenerateRules (_n : NFTables) (users : List UserWithNetworks) : String :=
  users.foldl (fun rules user =>
    let networks := sortStrings user.Networks
    rules ++ ("# " ++ user.Username ++ "\n") ++
      ("ip saddr " ++ user.VpnIP ++ " ip daddr \x7b " ++ String.intercalate ", " networks ++
        " \x7d accept\n"))
    ("# Auto-generated VPN user rules (nftables)\n" ++
      "# Do not edit manually - changes will be overwritten\n\n")

/-- The method `IPTables.GenerateRules`. -/
def IPTables.GenerateRules (i : IPTables) (users : List UserWithNetworks) : String :=
  let header :=
    "# Auto-generated VPN user rules (iptables)\n" ++
      "# Do not edit manually - changes will be overwritten\n\n" ++ "*filter\n" ++
      (":" ++ i.chainName ++ " - [0:0]\n") ++ ("-F " ++ i.chainName ++ "\n")
  let body := users.foldl (fun rules user =>
    let networks := sortStrings user.Networks
    networks.foldl (fun rules1 network =>
      rules1 ++ ("-A " ++ i.chainName ++ " -s " ++ user.VpnIP ++ " -d " ++ network ++
        " -j ACCEPT\n"))
      (rules ++ ("# " ++ user.Username ++ "\n"))) header
  body ++ "COMMIT\n"

/-! ## Command `cmd/connect`: the push configuration -/

/-- The loop of lines 102 to 111 of `cmd/connect/main.go`: whether a default route was
seen, and the CIDRs of the other routes in order. -/
def classifyRoutes (routes : List Network) : Bool × List String :=
  routes.foldl (fun st route =>
    if IsDefaultRoute route.CIDR then (true, st.2) else (st.1, st.2 ++ [route.CIDR]))
    (false, [])

/-- Lines 113 to 125 of `cmd/connect/main.go`: the strings handed to
`configContent.WriteString`, in order; a CIDR that `CIDRToNetmask` rejects is skipped. -/
def pushDirectives (lib : IPv6Lib) (routes : List Network) : List String :=
  let (hasDefaultRoute, networks) := classifyRoutes routes
  if hasDefaultRoute then ["push \"redirect-gateway def1\"\n"]
  else
    networks.foldl (fun out cidr =>
      match CIDRToNetmask lib cidr with
      | (_, some _) => out
      | (route, none) => out ++ ["push \"route " ++ route ++ "\"\n"]) []

/-- Lines 84 to 125 of `cmd/connect/main.go`: the content of the generated OpenVPN
configuration file. -/
def configContent (lib : IPv6Lib) (user : UserResponse) (routes : List Network) : String :=
  let ifconfig :=
    if user.VpnIP ≠ "" then "ifconfig-push " ++ user.VpnIP ++ " 255.255.255.0\n" else ""
  ifconfig ++ String.join (pushDirectives lib routes)

/-! ## Package `internal/config` and the remaining wire types -/

/-- The struct `config.APIConfig`; the timeout is in nanoseconds. -/
structure APIConfig where
  BaseURL : String
  Token : String
  Username : String
  Password : String
  Timeout : Nat
deriving DecidableEq, Repr

/-- The struct `config.OpenVPNConfig`. -/
structure OpenVPNConfig where
  SessionDir : String
deriving DecidableEq, Repr

/-- The struct `config.FirewallConfig`; `Type_` is the Go field `Type`. -/
structure FirewallConfig where
  Type_ : String
  NFTables : NFTablesConfig
  IPTables : IPTablesConfig
deriving DecidableEq, Repr

/-- The struct `config.Config`. -/
structure Config where
  API : APIConfig
  OpenVPN : OpenVPNConfig
  Firewall : FirewallConfig
deriving DecidableEq, Repr

/-- The method `APIConfig.UseToken`. -/
def APIConfig.UseToken (c : APIConfig) : Bool := c.Token != ""

/-- The struct `api.LoginResponse`; the expiry time is kept as its text. -/
structure LoginResponse where
  Token : String
  ExpiresAt : String
  User : UserResponse
deriving DecidableEq, Repr

/-- The struct `api.VpnSession`; the times are kept as their text. -/
structure VpnSession where
  ID : String
  UserID : String
  VpnIP : String
  ClientIP : String
  ConnectedAt : String
  DisconnectedAt : Option String
  BytesReceived : Int
  BytesSent : Int
deriving DecidableEq, Repr

/-- The struct `api.CreateSessionRequest`. -/
structure CreateSessionRequest where
  UserID : String
  VpnIP : String
  ClientIP : String
  ConnectedAt : String
deriving DecidableEq, Repr

/-- The struct `api.DisconnectSessionRequest`. -/
structure DisconnectSessionRequest where
  DisconnectedAt : String
  BytesReceived : Int
  BytesSent : Int
  DisconnectReason : String
deriving DecidableEq, Repr

/-! ## The rest of the client: sessions and user lookup -/

/-- What the three commands reach outside the repository besides `Env`: the remaining
decoders and the encoders of `encoding/json`, the escaping functions of `net/url`,
`filepath.Join`, `strings.TrimSpace`, `strconv.ParseInt` (its value, `0` when the text is
no number), the clock read by the one session call of a run, formatted as RFC 3339, and
the outcome of `exec.Command("sh", "-c", cmd).CombinedOutput()`. -/
structure Runtime extends Env where
  decodeLogin : String → Except GoError LoginResponse
  decodeUser : String → Except GoError UserResponse
  decodeSession : String → Except GoError VpnSession
  marshalLogin : String → String → String
  marshalCreateSession : CreateSessionRequest → String
  marshalDisconnectSession : DisconnectSessionRequest → String
  PathEscape : String → String
  QueryEscape : String → String
  Join : String → String → String
  TrimSpace : String → String
  ParseInt : String → Int
  now : String
  runShell : String → String × Option GoError

/-- The function `api.NewClient`. -/
def NewClient (cfg : APIConfig) : Client :=
  { baseURL := cfg.BaseURL, token := "", apiToken := if cfg.UseToken then cfg.Token else "" }

/-- The request `Client.Authenticate` sends. -/
def Client.loginRequest (rt : Runtime) (c : Client) (username password : String) : Request :=
  c.newRequest "POST" "/api/v1/auth/login" (some (rt.marshalLogin username password)) false

/-- The method `Client.Authenticate`: the client with its token stored, and the error. -/
def Client.Authenticate (rt : Runtime) (c : Client) (username password : String) :
    Client × Option GoError :=
  match rt.Do (c.loginRequest rt username password) with
  | .error err => (c, some ("login request failed: " ++ err))
  | .ok resp =>
    if resp.StatusCode ≠ 200 then (c, some (c.parseError rt.toEnv resp))
    else
      match rt.decodeLogin resp.Body with
      | .error err => (c, some ("failed to decode login response: " ++ err))
      | .ok loginResp => ({ c with token := loginResp.Token }, none)

/-- The method `Client.GetUserByUsername`; the legacy branch reads one page of at most
100 search results. -/
def Client.GetUserByUsername (rt : Runtime) (c : Client) (username : String) :
    Except GoError UserResponse :=
  if c.apiToken ≠ "" then
    match c.doRequest rt.toEnv "GET"
      ("/api/v1/vpn-auth/users/by-username/" ++ rt.PathEscape username) none true with
    | .error err => .error ("get user request failed: " ++ err)
    | .ok resp =>
      if resp.StatusCode ≠ 200 then .error (c.parseError rt.toEnv resp)
      else
        match rt.decodeUser resp.Body with
        | .error err => .error ("failed to decode user response: " ++ err)
        | .ok user => .ok user
  else
    match c.doRequest rt.toEnv "GET"
      ("/api/v1/users?" ++ "page_size=100&search=" ++ rt.QueryEscape username) none true with
    | .error err => .error ("search users request failed: " ++ err)
    | .ok resp =>
      if resp.StatusCode ≠ 200 then .error (c.parseError rt.toEnv resp)
      else
        match rt.decodeUserList resp.Body with
        | .error err => .error ("failed to decode users list: " ++ err)
        | .ok listResp =>
          match listResp.Users.find? (fun user => user.Username = username) with
          | some user => .ok user
          | none => .error ("user not found: " ++ username)

/-- The method `Client.CreateSession`. -/
def Client.CreateSession (rt : Runtime) (c : Client) (userID vpnIP clientIP : String) :
    Except GoError VpnSession :=
  let body : CreateSessionRequest :=
    { UserID := userID, VpnIP := vpnIP, ClientIP := clientIP, ConnectedAt := rt.now }
  match c.doRequest rt.toEnv "POST" "/api/v1/vpn-auth/sessions"
    (some (rt.marshalCreateSession body)) true with
  | .error err => .error ("create session request failed: " ++ err)
  | .ok resp =>
    if resp.StatusCode ≠ 201 then .error (c.parseError rt.toEnv resp)
    else
      match rt.decodeSession resp.Body with
      | .error err => .error ("failed to decode session: " ++ err)
      | .ok session => .ok session

/-- The request `Client.DisconnectSession` sends. -/
def Client.disconnectRequest (rt : Runtime) (c : Client) (sessionID : String)
    (bytesReceived bytesSent : Int) : Request :=
  c.newRequest "PUT" ("/api/v1/vpn-auth/sessions/" ++ sessionID ++ "/disconnect")
    (some (rt.marshalDisconnectSession
      { DisconnectedAt := rt.now, BytesReceived := bytesReceived, BytesSent := bytesSent
        DisconnectReason := "USER_REQUEST" })) true

/-- The method `Client.DisconnectSession`. -/
def Client.DisconnectSession (rt : Runtime) (c : Client) (sessionID : String)
    (bytesReceived bytesSent : Int) : Option GoError :=
  match rt.Do (c.disconnectRequest rt sessionID bytesReceived bytesSent) with
  | .error err => some ("disconnect session request failed: " ++ err)
  | .ok resp => if resp.StatusCode ≠ 200 then some (c.parseError rt.toEnv resp) else none

/-- The lines every command starts its work with: `api.NewClient`, then `Authenticate`
when the configuration holds no static token. -/
def startClient (rt : Runtime) (api : APIConfig) : Client × Option GoError :=
  if !api.UseToken then (NewClient api).Authenticate rt api.Username api.Password
  else (NewClient api, none)

/-! ## The files the commands read and write -/

/-- The files on disk: path and content of every file, and the paths at which the
operating system refuses to create, overwrite or remove a file (missing directory,
permissions, read-only mount). Reading an existing file succeeds; permission bits are not
kept. -/
structure FileSystem where
  files : List (String × String)
  denied : List String
deriving DecidableEq, Repr

/-- The function `os.ReadFile`; `none` is its error. -/
def FileSystem.ReadFile (fs : FileSystem) (path : String) : Option String :=
  fs.files.lookup path

/-- The function `os.WriteFile`: the files afterwards, and the error. -/
def FileSystem.WriteFile (fs : FileSystem) (path data : String) :
    FileSystem × Option GoError :=
  if path ∈ fs.denied then (fs, some ("open " ++ path ++ ": permission denied"))
  else ({ fs with files := (path, data) :: fs.files.filter (fun kv => kv.1 ≠ path) }, none)

/-- The function `os.Remove`: the files afterwards, and the error. -/
def FileSystem.Remove (fs : FileSystem) (path : String) : FileSystem × Option GoError :=
  if fs.ReadFile path = none then
    (fs, some ("remove " ++ path ++ ": no such file or directory"))
  else if path ∈ fs.denied then (fs, some ("remove " ++ path ++ ": permission denied"))
  else ({ fs with files := fs.files.filter (fun kv => kv.1 ≠ path) }, none)

/-- The call `strings.Split(s, "\n")` on the bytes of `s`. -/
def splitNewline : List Char → List (List Char)
  | [] => [[]]
  | c :: cs =>
    if c = '\n' then [] :: splitNewline cs
    else
      match splitNewline cs with
      | [] => [[c]]
      | l :: ls => (c :: l) :: ls

/-! ## The firewall interface and the three commands -/

/-- The interface `firewall.Firewall` with its two implementations. -/
inductive Firewall where
  | nftables (n : NFTables)
  | iptables (i : IPTables)
deriving DecidableEq, Repr

/-- The function `firewall.New`. -/
def New (cfg : FirewallConfig) : Firewall :=
  if cfg.Type_ = "iptables" then .iptables (NewIPTables cfg.IPTables)
  else .nftables (NewNFTables cfg.NFTables)

/-- The interface method `GenerateRules`. -/
def Firewall.GenerateRules : Firewall → List UserWithNetworks → String
  | .nftables n, users => n.GenerateRules users
  | .iptables i, users => i.GenerateRules users

/-- The interface method `GetRulesFile`. -/
def Firewall.GetRulesFile : Firewall → String
  | .nftables n => n.rulesFile
  | .iptables i => i.rulesFile

/-- The interface method `GetReloadCommand`. -/
def Firewall.GetReloadCommand : Firewall → String
  | .nftables n => n.reloadCommand
  | .iptables i => i.reloadCommand

/-- What a run of `openvpn-connect` is given: the positional arguments, the environment
variables set by OpenVPN (an unset variable reads as the empty string) and the result of
`config.Load`. -/
structure ConnectInput where
  args : List String
  common_name : String
  trusted_ip : String
  trusted_port : String
  ifconfig_pool_remote_ip : String
  config : Except GoError Config

/-- What a run of `openvpn-connect` leaves: the exit status and the files. -/
structure ConnectOutcome where
  status : Nat
  fs : FileSystem
deriving DecidableEq, Repr

/-- The path of the correlation record of a user: `filepath.Join(SessionDir,
"session-" + commonName)`. -/
def sessionFilePath (rt : Runtime) (cfg : Config) (commonName : String) : String :=
  rt.Join cfg.OpenVPN.SessionDir ("session-" ++ commonName)

/-- The function `main` of `cmd/connect/main.go`; log output is left out. -/
def connectMain (lib : IPv6Lib) (rt : Runtime) (inp : ConnectInput) (fs : FileSystem) :
    ConnectOutcome :=
  match inp.args with
  | [] => { status := 1, fs := fs }
  | openvpnConfigFile :: _ =>
    if inp.common_name = "" then { status := 1, fs := fs }
    else
      match inp.config with
      | .error _ => { status := 1, fs := fs }
      | .ok cfg =>
        match startClient rt cfg.API with
        | (_, some _) => { status := 1, fs := fs }
        | (client, none) =>
          match client.GetUserByUsername rt inp.common_name with
          | .error _ => { status := 1, fs := fs }
          | .ok user =>
            let vpnIP := if user.VpnIP ≠ "" then user.VpnIP else inp.ifconfig_pool_remote_ip
            match client.GetUserRoutes rt.toEnv user.ID with
            | (_, some _) => { status := 1, fs := fs }
            | (routes, none) =>
              match fs.WriteFile openvpnConfigFile (configContent lib user routes) with
              | (_, some _) => { status := 1, fs := fs }
              | (fs1, none) =>
                match client.CreateSession rt user.ID vpnIP inp.trusted_ip with
                | .error _ => { status := 0, fs := fs1 }
                | .ok session =>
                  let sessionFile := sessionFilePath rt cfg inp.common_name
                  let sessionData :=
                    session.ID ++ "\n" ++ inp.trusted_ip ++ "\n" ++ inp.trusted_port
                  { status := 0, fs := (fs1.WriteFile sessionFile sessionData).1 }

/-- What a run of `openvpn-disconnect` is given. -/
structure DisconnectInput where
  common_name : String
  bytes_received : String
  bytes_sent : String
  config : Except GoError Config

/-- What a run of `openvpn-disconnect` leaves: the exit status, the files, and the
requests it sent to the directory service, in order. -/
structure DisconnectOutcome where
  status : Nat
  fs : FileSystem
  sent : List Request
deriving DecidableEq, Repr

/-- The function `main` of `cmd/disconnect/main.go`; log output is left out. -/
def disconnectMain (rt : Runtime) (inp : DisconnectInput) (fs : FileSystem) :
    DisconnectOutcome :=
  if inp.common_name = "" then { status := 1, fs := fs, sent := [] }
  else
    let bytesReceived := rt.ParseInt inp.bytes_received
    let bytesSent := rt.ParseInt inp.bytes_sent
    match inp.config with
    | .error _ => { status := 1, fs := fs, sent := [] }
    | .ok cfg =>
      let sessionFile := sessionFilePath rt cfg inp.common_name
      match fs.ReadFile sessionFile with
      | none => { status := 0, fs := fs, sent := [] }
      | some data =>
        let lines := splitNewline data.data
        if lines.length < 1 then { status := 0, fs := fs, sent := [] }
        else
          let sessionID := rt.TrimSpace ⟨lines.headD []⟩
          let sentLogin :=
            if !cfg.API.UseToken then
              [(NewClient cfg.API).loginRequest rt cfg.API.Username cfg.API.Password]
            else []
          match startClient rt cfg.API with
          | (_, some _) => { status := 0, fs := fs, sent := sentLogin }
          | (client, none) =>
            let _err := client.DisconnectSession rt sessionID bytesReceived bytesSent
            { status := 0
              fs := (fs.Remove sessionFile).1
              sent := sentLogin ++
                [client.disconnectRequest rt sessionID bytesReceived bytesSent] }

/-- What a run of `openvpn-firewall` is given. -/
structure FirewallInput where
  dryRun : Bool
  config : Except GoError Config

/-- What a run of `openvpn-firewall` leaves: the exit status, the files, the shell commands
it ran, in order, and what it wrote to standard output. -/
structure FirewallOutcome where
  status : Nat
  fs : FileSystem
  ran : List String
  stdout : String
deriving DecidableEq, Repr

/-- Lines 43 to 72 of `cmd/firewall/main.go`: the users with their networks, or the exit
status the run ends with; `none` when the page loop of `GetAllActiveUsers` runs out of
fuel. -/
def collectForSync (rt : Runtime) (cfg : Config) (fuel : Nat) :
    Option (Except Nat (List UserWithNetworks)) :=
  match startClient rt cfg.API with
  | (_, some _) => some (.error 1)
  | (client, none) =>
    match client.GetAllActiveUsers rt.toEnv fuel with
    | none => none
    | some r =>
      match r.err with
      | some _ => some (.error 1)
      | none =>
        match CollectUserNetworks rt.toEnv client r.users with
        | (_, some _) => some (.error 1)
        | (usersWithNetworks, none) => some (.ok usersWithNetworks)

/-- Lines 80 to 125 of `cmd/firewall/main.go`: the dry run, the comparison with the rules
file, the write and the reload. What the reload command does to the files is not kept. -/
def applyRules (rt : Runtime) (fw : Firewall) (dryRun : Bool) (newRules : String)
    (fs : FileSystem) : FirewallOutcome :=
  if dryRun then { status := 0, fs := fs, ran := [], stdout := newRules }
  else
    let rulesFile := fw.GetRulesFile
    let oldRules := (fs.ReadFile rulesFile).getD ""
    if oldRules = newRules then { status := 0, fs := fs, ran := [], stdout := "" }
    else
      match fs.WriteFile rulesFile newRules with
      | (_, some _) => { status := 1, fs := fs, ran := [], stdout := "" }
      | (fs1, none) =>
        let reloadCmd := fw.GetReloadCommand
        match (rt.runShell reloadCmd).2 with
        | some _ => { status := 1, fs := fs1, ran := [reloadCmd], stdout := "" }
        | none => { status := 0, fs := fs1, ran := [reloadCmd], stdout := "" }

/-- The function `main` of `cmd/firewall/main.go`; log output is left out. -/
def firewallMain (rt : Runtime) (inp : FirewallInput) (fuel : Nat) (fs : FileSystem) :
    Option FirewallOutcome :=
  match inp.config with
  | .error _ => some { status := 1, fs := fs, ran := [], stdout := "" }
  | .ok cfg =>
    match collectForSync rt cfg fuel with
    | none => none
    | some (.error code) => some { status := code, fs := fs, ran := [], stdout := "" }
    | some (.ok usersWithNetworks) =>
      let fw := New cfg.Firewall
      some (applyRules rt fw inp.dryRun (fw.GenerateRules usersWithNetworks) fs)

/-! ## Directory services for evaluating the client at concrete inputs -/

/-- A client in token mode. -/
def tokenClient : Client := { baseURL := "https://dir", token := "", apiToken := "secret" }

/-- A client in legacy mode, after `Authenticate` stored its bearer token. -/
def legacyClient : Client := { baseURL := "https://dir", token := "jwt", apiToken := "" }

/-- The body `{"routes":[{"cidr":"::/0"}]}`. -/
def bodyRoutesV6 : String := "\x7b\"routes\":[\x7b\"cidr\":\"::/0\"\x7d]\x7d"

/-- The body `{"routes":[{"cidr":"10.0.0.0/8"},{"cidr":"::/0"}]}`. -/
def bodyRoutesMixed : String :=
  "\x7b\"routes\":[\x7b\"cidr\":\"10.0.0.0/8\"\x7d,\x7b\"cidr\":\"::/0\"\x7d]\x7d"

/-- The body `{"users":[{"id":"u1","username":"alice","vpn_ip":"10.8.0.2"}],"total":2,
"page":1,"page_size":100,"total_pages":2}` (on one line). -/
def bodyUsersPage1 : String :=
  "\x7b\"users\":[\x7b\"id\":\"u1\",\"username\":\"alice\",\"vpn_ip\":\"10.8.0.2\"\x7d]," ++
    "\"total\":2,\"page\":1,\"page_size\":100,\"total_pages\":2\x7d"

/-- The body `{"error":"internal","message":"database unavailable"}`. -/
def bodyServerError : String :=
  "\x7b\"error\":\"internal\",\"message\":\"database unavailable\"\x7d"

/-- The body `{"groups":[{"id":"g1","networks":[{"id":"n1","cidr":"10.0.0.0/8"},
{"id":"n2","cidr":"192.168.1.0/24"}]},{"id":"g2","networks":[{"id":"n3","cidr":"10.0.0.0/8"}]}]}`
(on one line). -/
def bodyGroups : String :=
  "\x7b\"groups\":[\x7b\"id\":\"g1\",\"networks\":[\x7b\"id\":\"n1\",\"cidr\":\"10.0.0.0/8\"\x7d," ++
    "\x7b\"id\":\"n2\",\"cidr\":\"192.168.1.0/24\"\x7d]\x7d,\x7b\"id\":\"g2\",\"networks\":[" ++
    "\x7b\"id\":\"n3\",\"cidr\":\"10.0.0.0/8\"\x7d]\x7d]\x7d"

/-- The groups `bodyGroups` decodes to: `10.0.0.0/8` occurs in both groups. -/
def groupsOfU1 : GroupsResponse :=
  { Groups :=
      [{ ID := "g1", Name := "", Description := ""
         Networks := [⟨"n1", "", "10.0.0.0/8", ""⟩, ⟨"n2", "", "192.168.1.0/24", ""⟩] },
       { ID := "g2", Name := "", Description := ""
         Networks := [⟨"n3", "", "10.0.0.0/8", ""⟩] }] }

/-- The user `alice` as `bodyUsersPage1` carries her. -/
def alice : UserResponse :=
  { ID := "u1", Username := "alice", FirstName := "", LastName := "", Email := "", Role := ""
    IsActive := false, ValidFrom := none, ValidTo := none, VpnIP := "10.8.0.2" }

/-- A second user, with the static address `10.8.0.3`. -/
def bob : UserResponse :=
  { ID := "u2", Username := "bob", FirstName := "", LastName := "", Email := "", Role := ""
    IsActive := false, ValidFrom := none, ValidTo := none, VpnIP := "10.8.0.3" }

/-- A directory service given by a table. In token mode the routes of `u1` are the single
route `::/0` and those of `u2` are `10.0.0.0/8` and `::/0`. In legacy mode the groups of
`u1` are `groupsOfU1`, page 1 of the
listing is `bodyUsersPage1` with status 200 and page 2 is answered with status 500 and the
error body `bodyServerError`. The decoders are `encoding/json` on these four bodies: fields
absent from a body keep their zero value and unknown fields are ignored, so the error body
decodes into a `UserListResponse` with no users and `TotalPages = 0`. -/
def tableDirectory : Env where
  Do := fun req =>
    if req.URL = "https://dir/api/v1/vpn-auth/users/u1/routes" then .ok ⟨200, bodyRoutesV6⟩
    else if req.URL = "https://dir/api/v1/vpn-auth/users/u2/routes" then
      .ok ⟨200, bodyRoutesMixed⟩
    else if req.URL = "https://dir/api/v1/users/u1/groups" then .ok ⟨200, bodyGroups⟩
    else if req.URL = "https://dir/api/v1/users?is_active=true&page=1&page_size=100" then
      .ok ⟨200, bodyUsersPage1⟩
    else if req.URL = "https://dir/api/v1/users?is_active=true&page=2&page_size=100" then
      .ok ⟨500, bodyServerError⟩
    else .error "connection refused"
  decodeUserList := fun body =>
    if body = bodyUsersPage1 then
      .ok { Users := [alice], Total := 2, Page := 1, PageSize := 100, TotalPages := 2 }
    else if body = bodyServerError then
      .ok { Users := [], Total := 0, Page := 0, PageSize := 0, TotalPages := 0 }
    else .error "invalid character"
  decodeUsers := fun _ => .error "invalid character"
  decodeRoutes := fun body =>
    if body = bodyRoutesV6 then .ok ⟨[⟨"", "", "::/0", ""⟩]⟩
    else if body = bodyRoutesMixed then
      .ok ⟨[⟨"", "", "10.0.0.0/8", ""⟩, ⟨"", "", "::/0", ""⟩]⟩
    else .error "invalid character"
  decodeGroups := fun body =>
    if body = bodyGroups then .ok groupsOfU1 else .error "invalid character"
  decodeError := fun body =>
    if body = bodyServerError then .ok ⟨"internal", "database unavailable"⟩
    else .error "invalid character"
  rangeOrder := fun m => m.reverse
  rangeOrder_perm := fun m => List.reverse_perm m

/-- The body `{"users":[{"id":"u<p>"}],"total":3,"page":<p>,"page_size":100,"total_pages":3}`
of page `p` of a listing of three pages. -/
def bodyOfPage (p : Nat) : String :=
  "\x7b\"users\":[\x7b\"id\":\"u" ++ toString p ++ "\"\x7d],\"total\":3,\"page\":" ++ toString p ++
    ",\"page_size\":100,\"total_pages\":3\x7d"

/-- The user with identifier `u<p>` and every other field at its zero value. -/
def userOfPage (p : Nat) : UserResponse :=
  { ID := "u" ++ toString p, Username := "", FirstName := "", LastName := "", Email := ""
    Role := "", IsActive := false, ValidFrom := none, ValidTo := none, VpnIP := "" }

/-- A legacy directory service whose listing has three pages of one user each, every page
reporting `total_pages = 3`. -/
def threePageDirectory : Env where
  Do := fun req =>
    if req.URL = "https://dir" ++ usersPagePath 1 then .ok ⟨200, bodyOfPage 1⟩
    else if req.URL = "https://dir" ++ usersPagePath 2 then .ok ⟨200, bodyOfPage 2⟩
    else if req.URL = "https://dir" ++ usersPagePath 3 then .ok ⟨200, bodyOfPage 3⟩
    else .error "connection refused"
  decodeUserList := fun body =>
    if body = bodyOfPage 1 then
      .ok { Users := [userOfPage 1], Total := 3, Page := 1, PageSize := 100, TotalPages := 3 }
    else if body = bodyOfPage 2 then
      .ok { Users := [userOfPage 2], Total := 3, Page := 2, PageSize := 100, TotalPages := 3 }
    else if body = bodyOfPage 3 then
      .ok { Users := [userOfPage 3], Total := 3, Page := 3, PageSize := 100, TotalPages := 3 }
    else .error "invalid character"
  decodeUsers := fun _ => .error "invalid character"
  decodeRoutes := fun _ => .error "invalid character"
  decodeGroups := fun _ => .error "invalid character"
  decodeError := fun _ => .error "invalid character"
  rangeOrder := fun m => m
  rangeOrder_perm := fun m => List.Perm.refl m

/-! ## A runtime for evaluating the commands at concrete inputs -/

/-- The body `{"users":[{"id":"u1","username":"alice","vpn_ip":"10.8.0.2"},
{"id":"u2","username":"bob","vpn_ip":"10.8.0.3"}]}` (on one line). -/
def bodyUsers : String :=
  "\x7b\"users\":[\x7b\"id\":\"u1\",\"username\":\"alice\",\"vpn_ip\":\"10.8.0.2\"\x7d," ++
    "\x7b\"id\":\"u2\",\"username\":\"bob\",\"vpn_ip\":\"10.8.0.3\"\x7d]\x7d"

/-- The body `{"id":"u1","username":"alice","vpn_ip":"10.8.0.2"}`. -/
def bodyAlice : String :=
  "\x7b\"id\":\"u1\",\"username\":\"alice\",\"vpn_ip\":\"10.8.0.2\"\x7d"

/-- The body `{"id":"s1","user_id":"u1","vpn_ip":"10.8.0.2","client_ip":"203.0.113.9",
"connected_at":"2024-01-01T00:00:00Z"}` (on one line). -/
def bodySession : String :=
  "\x7b\"id\":\"s1\",\"user_id\":\"u1\",\"vpn_ip\":\"10.8.0.2\"," ++
    "\"client_ip\":\"203.0.113.9\",\"connected_at\":\"2024-01-01T00:00:00Z\"\x7d"

/-- The session `bodySession` decodes to. -/
def sessionS1 : VpnSession :=
  { ID := "s1", UserID := "u1", VpnIP := "10.8.0.2", ClientIP := "203.0.113.9"
    ConnectedAt := "2024-01-01T00:00:00Z", DisconnectedAt := none
    BytesReceived := 0, BytesSent := 0 }

/-- The table directory with three more endpoints of the token dialect: the listing of
all users (`alice` and `bob`), the lookup of `alice` by name, and session creation, which
answers 201 with `bodySession`. Every other request, the login of the legacy dialect and
the session teardown among them, fails in transport as before. -/
def flowDirectory : Env :=
  { tableDirectory with
    Do := fun req =>
      if req.URL = "https://dir/api/v1/vpn-auth/users" then .ok ⟨200, bodyUsers⟩
      else if req.URL = "https://dir/api/v1/vpn-auth/users/by-username/alice" then
        .ok ⟨200, bodyAlice⟩
      else if req.URL = "https://dir/api/v1/vpn-auth/sessions" then .ok ⟨201, bodySession⟩
      else tableDirectory.Do req
    decodeUsers := fun body =>
      if body = bodyUsers then .ok ⟨[alice, bob]⟩ else .error "invalid character" }

/-- A runtime over `flowDirectory`. Its library functions are the Go ones on the inputs of
the examples: names that need no escaping, paths that are already clean, text without
surrounding white space, and the byte counters `0` and `2048`. -/
def tableRuntime : Runtime :=
  { toEnv := flowDirectory
    decodeLogin := fun _ => .error "invalid character"
    decodeUser := fun body => if body = bodyAlice then .ok alice else .error "invalid character"
    decodeSession := fun body =>
      if body = bodySession then .ok sessionS1 else .error "invalid character"
    marshalLogin := fun username password =>
      "\x7b\"password\":\"" ++ password ++ "\",\"username\":\"" ++ username ++ "\"\x7d"
    marshalCreateSession := fun r =>
      "\x7b\"user_id\":\"" ++ r.UserID ++ "\",\"vpn_ip\":\"" ++ r.VpnIP ++
        "\",\"client_ip\":\"" ++ r.ClientIP ++ "\",\"connected_at\":\"" ++ r.ConnectedAt ++
        "\"\x7d"
    marshalDisconnectSession := fun r =>
      "\x7b\"disconnected_at\":\"" ++ r.DisconnectedAt ++ "\",\"bytes_received\":" ++
        toString r.BytesReceived ++ ",\"bytes_sent\":" ++ toString r.BytesSent ++
        ",\"disconnect_reason\":\"" ++ r.DisconnectReason ++ "\"\x7d"
    PathEscape := fun s => s
    QueryEscape := fun s => s
    Join := fun dir file => dir ++ "/" ++ file
    TrimSpace := fun s => s
    ParseInt := fun s => if s = "2048" then 2048 else 0
    now := "2024-01-01T00:00:00Z"
    runShell := fun _ => ("", none) }

/-- A configuration in token mode, with the nftables backend. -/
def tokenConfig : Config :=
  { API := { BaseURL := "https://dir", Token := "secret", Username := "", Password := ""
             Timeout := 10000000000 }
    OpenVPN := { SessionDir := "/var/run/openvpn" }
    Firewall :=
      { Type_ := "nftables"
        NFTables := { RulesFile := "/etc/nftables.d/vpn-users.nft"
                      ReloadCommand := "nft -f /etc/nftables.conf" }
        IPTables := { ChainName := "", RulesFile := "/etc/iptables/vpn-users.rules"
                      ReloadCommand := "iptables-restore -n /etc/iptables/vpn-users.rules" } } }

/-- A configuration in legacy mode: no static token, a service account instead. -/
def legacyConfig : Config :=
  { tokenConfig with
    API := { BaseURL := "https://dir", Token := "", Username := "svc", Password := "pw"
             Timeout := 10000000000 } }

/-- The correlation record the connect run of `alice` leaves. -/
def recordOfAlice : String := "s1\n203.0.113.9\n51000"

/-- A disk that holds the correlation record of `alice` and nothing else. -/
def diskWithRecord : FileSystem :=
  { files := [("/var/run/openvpn/session-alice", recordOfAlice)], denied := [] }

/-- The same disk when the session directory does not let the process remove files. -/
def diskWithLockedRecord : FileSystem :=
  { files := [("/var/run/openvpn/session-alice", recordOfAlice)]
    denied := ["/var/run/openvpn/session-alice"] }

/-- An empty disk. -/
def emptyDisk : FileSystem := { files := [], denied := [] }

/-- An empty disk on which the correlation record of `alice` cannot be created, as when
the session directory is missing. -/
def diskWithoutSessionDir : FileSystem :=
  { files := [], denied := ["/var/run/openvpn/session-alice"] }

/-! ## Vocabulary for stating the firewall properties -/

/-- Two users equal up to the order of their networks. -/
def sameUpToNetworkOrder (u v : UserWithNetworks) : Prop :=
  u.Username = v.Username ∧ u.VpnIP = v.VpnIP ∧ u.Networks.Perm v.Networks

/-- The entry `CollectUserNetworks` adds for one user, if any. -/
def collectOne (env : Env) (client : Client) (user : UserResponse) :
    Option UserWithNetworks :=
  if user.VpnIP = "" then none
  else
    match client.GetUserRoutes env user.ID with
    | (_, some _) => none
    | (routes, none) =>
      if (collectNetworks routes).length > 0 then
        some { Username := user.Username, VpnIP := user.VpnIP
               Networks := collectNetworks routes }
      else none

/-! ## Specification-side vocabulary for CIDR conversion -/

/-- The 32-bit value of the IPv4 address `a.b.c.d`. -/
def ipv4Value (a b c d : Nat) : Nat := a * 2 ^ 24 + b * 2 ^ 16 + c * 2 ^ 8 + d

/-- A 32-bit value with its low `32 - n` host bits cleared. -/
def clearHostBits (x n : Nat) : Nat := x - x % 2 ^ (32 - n)

/-- The 32-bit netmask with `n` leading one bits. -/
def netmaskValue (n : Nat) : Nat := 2 ^ 32 - 2 ^ (32 - n)

/-- A 32-bit value written in dotted decimal, most significant byte first. -/
def dottedDecimal (x : Nat) : String :=
  toString (x / 2 ^ 24 % 256) ++ "." ++ toString (x / 2 ^ 16 % 256) ++ "." ++
    toString (x / 2 ^ 8 % 256) ++ "." ++ toString (x % 256)

/-- The CIDR string `a.b.c.d/n`, every number in decimal without leading zeros. -/
def cidrString (a b c d n : Nat) : String :=
  toString a ++ "." ++ toString b ++ "." ++ toString c ++ "." ++ toString d ++ "/" ++
    toString n

/-- The characters of `a.b.c.d` as `netip.Addr.string4` writes them. -/
def dottedChars (a b c d : Nat) : List Char :=
  appendDecimal a ++ '.' :: (appendDecimal b ++ '.' :: (appendDecimal c ++
    '.' :: appendDecimal d))

/-- The number of one bits of an `n`-bit netmask that fall into byte `i`. -/
def onesInByte (n i : Nat) : Nat := min 8 (n - 8 * i)

/-! ## Vocabulary for stating the format of the generated rules -/

/-- A string that is one line of text: no newline but the one that ends it. -/
def isLine (s : String) : Prop := ∃ body : String, s = body ++ "\n" ∧ '\n' ∉ body.data

/-- The body `{"error":"unauthorized","message":""}`. -/
def bodyEmptyMessage : String := "\x7b\"error\":\"unauthorized\",\"message\":\"\"\x7d"

/-- The table directory, whose `encoding/json` also decodes `bodyEmptyMessage`. -/
def emptyMessageDirectory : Env :=
  { tableDirectory with
    decodeError := fun body =>
      if body = bodyEmptyMessage then .ok ⟨"unauthorized", ""⟩
      else tableDirectory.decodeError body }

/-! # Properties -/

/-! ## Lemmas on the IPv4 parser and printer -/

theorem digit_facts : ∀ e : Fin 10,
    ('0' ≤ Char.ofNat (48 + e.val) ∧ Char.ofNat (48 + e.val) ≤ '9') ∧
    (Char.ofNat (48 + e.val)).toNat = 48 + e.val ∧
    Char.ofNat (48 + e.val) ≠ '.' ∧ Char.ofNat (48 + e.val) ≠ ':' ∧
    Char.ofNat (48 + e.val) ≠ '%' ∧ Char.ofNat (48 + e.val) ≠ '/' := by
  decide

theorem parseIPv4Fields_digit (prev : Option Char) (e : Nat) (he : e < 10)
    (rest : List Char) (val pos digLen : Nat) (fields : List Nat) :
    parseIPv4Fields prev (Char.ofNat (48 + e) :: rest) val pos digLen fields =
      if digLen = 1 ∧ val = 0 then none
      else if val * 10 + e > 255 then none
      else parseIPv4Fields (some (Char.ofNat (48 + e))) rest (val * 10 + e) pos
        (digLen + 1) fields := by
  obtain ⟨h1, h2, -⟩ := digit_facts ⟨e, he⟩
  simp only at h1 h2
  have h48 : '0'.toNat = 48 := by decide
  have hv : val * 10 + (48 + e) - 48 = val * 10 + e := by omega
  rw [parseIPv4Fields]
  simp only [h1, h2, h48, hv, and_self, if_true]

theorem parseIPv4Fields_dot (c : Char) (hc : c ≠ '.') (rest : List Char) (hrest : rest ≠ [])
    (val pos digLen : Nat) (hpos : pos < 3) (fields : List Nat) :
    parseIPv4Fields (some c) ('.' :: rest) val pos digLen fields =
      parseIPv4Fields (some '.') rest 0 (pos + 1) 0 (fields.set pos val) := by
  have hd : ¬ ('0' ≤ '.' ∧ '.' ≤ '9') := by decide
  have hp : pos ≠ 3 := by omega
  rw [parseIPv4Fields]
  simp [hd, hc, hrest, hp]

theorem parseIPv4Fields_octet_dot (prev : Option Char) (x : Nat) (hx : x < 256)
    (rest : List Char) (hrest : rest ≠ []) (pos : Nat) (hpos : pos < 3) (fields : List Nat) :
    parseIPv4Fields prev (appendDecimal x ++ '.' :: rest) 0 pos 0 fields =
      parseIPv4Fields (some '.') rest 0 (pos + 1) 0 (fields.set pos x) := by
  have d0 := (digit_facts ⟨x % 10, by omega⟩).2.2.1
  simp only at d0
  unfold appendDecimal
  by_cases h100 : x ≥ 100
  · have h10 : x ≥ 10 := by omega
    simp only [h100, h10, if_true, List.cons_append, List.nil_append]
    rw [parseIPv4Fields_digit _ _ (by omega), parseIPv4Fields_digit _ _ (by omega),
      parseIPv4Fields_digit _ _ (by omega)]
    have e : (0 * 10 + x / 100) * 10 + x / 10 % 10 = x / 10 := by omega
    have e2 : x / 10 * 10 + x % 10 = x := by omega
    rw [if_neg (by omega), if_neg (by omega), if_neg (by omega), if_neg (by omega),
      if_neg (by omega), if_neg (by omega), e, e2, parseIPv4Fields_dot _ d0 _ hrest _ _ _ hpos]
  · by_cases h10 : x ≥ 10
    · simp only [h100, h10, if_true, if_false, List.cons_append, List.nil_append]
      have e0 : x / 10 % 10 = x / 10 := by omega
      rw [e0, parseIPv4Fields_digit _ _ (by omega), parseIPv4Fields_digit _ _ (by omega)]
      have e2 : (0 * 10 + x / 10) * 10 + x % 10 = x := by omega
      rw [if_neg (by omega), if_neg (by omega), if_neg (by omega), if_neg (by omega), e2,
        parseIPv4Fields_dot _ d0 _ hrest _ _ _ hpos]
    · simp only [h100, h10, if_false, List.cons_append, List.nil_append]
      have e2 : 0 * 10 + x % 10 = x := by omega
      rw [parseIPv4Fields_digit _ _ (by omega), if_neg (by omega), if_neg (by omega), e2,
        parseIPv4Fields_dot _ d0 _ hrest _ _ _ hpos]

theorem parseIPv4Fields_octet_end (prev : Option Char) (x : Nat) (hx : x < 256)
    (fields : List Nat) :
    parseIPv4Fields prev (appendDecimal x) 0 3 0 fields = some (fields.set 3 x) := by
  have hend : ∀ (p : Option Char) (k : Nat),
      parseIPv4Fields p [] x 3 k fields = some (fields.set 3 x) := by
    intro p k
    rw [parseIPv4Fields]
    simp
  unfold appendDecimal
  by_cases h100 : x ≥ 100
  · have h10 : x ≥ 10 := by omega
    simp only [h100, h10, if_true, List.cons_append, List.nil_append]
    rw [parseIPv4Fields_digit _ _ (by omega), parseIPv4Fields_digit _ _ (by omega),
      parseIPv4Fields_digit _ _ (by omega)]
    have e : (0 * 10 + x / 100) * 10 + x / 10 % 10 = x / 10 := by omega
    have e2 : x / 10 * 10 + x % 10 = x := by omega
    rw [if_neg (by omega), if_neg (by omega), if_neg (by omega), if_neg (by omega),
      if_neg (by omega), if_neg (by omega), e, e2, hend]
  · by_cases h10 : x ≥ 10
    · simp only [h100, h10, if_true, if_false, List.cons_append, List.nil_append]
      have e0 : x / 10 % 10 = x / 10 := by omega
      rw [e0, parseIPv4Fields_digit _ _ (by omega), parseIPv4Fields_digit _ _ (by omega)]
      have e2 : (0 * 10 + x / 10) * 10 + x % 10 = x := by omega
      rw [if_neg (by omega), if_neg (by omega), if_neg (by omega), if_neg (by omega), e2,
        hend]
    · simp only [h100, h10, if_false, List.cons_append, List.nil_append]
      have e2 : 0 * 10 + x % 10 = x := by omega
      rw [parseIPv4Fields_digit _ _ (by omega), if_neg (by omega), if_neg (by omega), e2,
        hend]

set_option maxRecDepth 100000 in
theorem appendDecimal_plain : ∀ x : Fin 256, ∀ c ∈ appendDecimal x.val,
    c ≠ '.' ∧ c ≠ ':' ∧ c ≠ '%' ∧ c ≠ '/' := by
  decide

theorem scan_plain_then_dot (lib : IPv6Lib) (s pre rest : List Char)
    (hpre : ∀ c ∈ pre, c ≠ '.' ∧ c ≠ ':' ∧ c ≠ '%' ∧ c ≠ '/') :
    ParseAddr.scan lib s (pre ++ '.' :: rest) = parseIPv4 s := by
  induction pre with
  | nil => simp [ParseAddr.scan]
  | cons c pre ih =>
    have hc := hpre c (List.mem_cons_self c pre)
    simp only [List.cons_append, ParseAddr.scan, hc.1, hc.2.1, hc.2.2.1, if_false]
    exact ih (fun c1 h1 => hpre c1 (List.mem_cons_of_mem c h1))

theorem span_slash (pre rest : List Char) (hpre : ∀ c ∈ pre, c ≠ '/') :
    (pre ++ '/' :: rest).span (· ≠ '/') = (pre, '/' :: rest) := by
  rw [List.span_eq_take_drop]
  induction pre with
  | nil => simp
  | cons c pre ih =>
    have hc := hpre c (List.mem_cons_self c pre)
    have ih1 := ih (fun c1 h1 => hpre c1 (List.mem_cons_of_mem c h1))
    simp only [Prod.mk.injEq, ne_eq, decide_not] at ih1
    simp [hc, ih1.1, ih1.2]

theorem appendDecimal_ne_nil (x : Nat) : appendDecimal x ≠ [] := by
  unfold appendDecimal
  simp

theorem ParseAddr_dottedChars (lib : IPv6Lib) (a b c d : Nat) (ha : a < 256) (hb : b < 256)
    (hc : c < 256) (hd : d < 256) :
    ParseAddr lib (dottedChars a b c d) = some (Addr.v4 [a, b, c, d]) := by
  unfold ParseAddr
  rw [dottedChars, scan_plain_then_dot lib _ _ _ (appendDecimal_plain ⟨a, ha⟩)]
  unfold parseIPv4
  rw [parseIPv4Fields_octet_dot none a ha _ (by simp [appendDecimal_ne_nil]) 0 (by omega),
    parseIPv4Fields_octet_dot _ b hb _ (by simp [appendDecimal_ne_nil]) 1 (by omega),
    parseIPv4Fields_octet_dot _ c hc _ (appendDecimal_ne_nil d) 2 (by omega),
    parseIPv4Fields_octet_end _ d hd]
  rfl

theorem dottedChars_no_slash (a b c d : Nat) (ha : a < 256) (hb : b < 256)
    (hc : c < 256) (hd : d < 256) : ∀ ch ∈ dottedChars a b c d, ch ≠ '/' := by
  intro ch hch
  have hdot : ('.' : Char) ≠ '/' := by decide
  simp only [dottedChars, List.mem_append, List.mem_cons] at hch
  rcases hch with h | h | h | h | h | h | h
  · exact (appendDecimal_plain ⟨a, ha⟩ ch h).2.2.2
  · exact h ▸ hdot
  · exact (appendDecimal_plain ⟨b, hb⟩ ch h).2.2.2
  · exact h ▸ hdot
  · exact (appendDecimal_plain ⟨c, hc⟩ ch h).2.2.2
  · exact h ▸ hdot
  · exact (appendDecimal_plain ⟨d, hd⟩ ch h).2.2.2

theorem dtoi_prefix_length : ∀ n : Fin 33,
    dtoi (toString n.val).data = (n.val, (toString n.val).data.length, true) := by
  decide

set_option maxRecDepth 100000 in
theorem appendDecimal_eq_toString : ∀ x : Fin 256,
    (toString x.val).data = appendDecimal x.val := by
  decide

theorem cidrString_data (a b c d n : Nat) (ha : a < 256) (hb : b < 256)
    (hc : c < 256) (hd : d < 256) :
    (cidrString a b c d n).data = dottedChars a b c d ++ '/' :: (toString n).data := by
  have h1 := appendDecimal_eq_toString ⟨a, ha⟩
  have h2 := appendDecimal_eq_toString ⟨b, hb⟩
  have h3 := appendDecimal_eq_toString ⟨c, hc⟩
  have h4 := appendDecimal_eq_toString ⟨d, hd⟩
  simp only at h1 h2 h3 h4
  have hdot : (".": String).data = ['.'] := rfl
  have hsl : ("/": String).data = ['/'] := rfl
  simp only [cidrString, dottedChars, String.data_append, h1, h2, h3, h4, hdot, hsl,
    List.append_assoc, List.cons_append, List.nil_append]

theorem CIDRMask_bytes : ∀ n : Fin 33,
    CIDRMask n.val 32 = [0xff - 0xff >>> onesInByte n.val 0, 0xff - 0xff >>> onesInByte n.val 1,
      0xff - 0xff >>> onesInByte n.val 2, 0xff - 0xff >>> onesInByte n.val 3] := by
  decide

set_option maxRecDepth 100000 in
theorem land_mask_byte : ∀ a : Fin 256, ∀ k : Fin 9,
    a.val &&& (0xff - 0xff >>> k.val) = a.val / 2 ^ (8 - k.val) * 2 ^ (8 - k.val) := by
  decide

set_option maxHeartbeats 4000000 in
theorem clearHostBits_bytes (a b c d n : Nat) (ha : a < 256) (hb : b < 256)
    (hc : c < 256) (hd : d < 256) (hn : n ≤ 32) :
    clearHostBits (ipv4Value a b c d) n / 2 ^ 24 % 256 =
        a / 2 ^ (8 - onesInByte n 0) * 2 ^ (8 - onesInByte n 0) ∧
      clearHostBits (ipv4Value a b c d) n / 2 ^ 16 % 256 =
        b / 2 ^ (8 - onesInByte n 1) * 2 ^ (8 - onesInByte n 1) ∧
      clearHostBits (ipv4Value a b c d) n / 2 ^ 8 % 256 =
        c / 2 ^ (8 - onesInByte n 2) * 2 ^ (8 - onesInByte n 2) ∧
      clearHostBits (ipv4Value a b c d) n % 256 =
        d / 2 ^ (8 - onesInByte n 3) * 2 ^ (8 - onesInByte n 3) := by
  interval_cases n <;> simp only [clearHostBits, ipv4Value, onesInByte] <;> norm_num <;> omega

theorem string4_dotted (x : Nat) :
    string4 [x / 2 ^ 24 % 256, x / 2 ^ 16 % 256, x / 2 ^ 8 % 256, x % 256] =
      dottedDecimal x := by
  have h1 := appendDecimal_eq_toString ⟨x / 2 ^ 24 % 256, Nat.mod_lt _ (by norm_num)⟩
  have h2 := appendDecimal_eq_toString ⟨x / 2 ^ 16 % 256, Nat.mod_lt _ (by norm_num)⟩
  have h3 := appendDecimal_eq_toString ⟨x / 2 ^ 8 % 256, Nat.mod_lt _ (by norm_num)⟩
  have h4 := appendDecimal_eq_toString ⟨x % 256, Nat.mod_lt _ (by norm_num)⟩
  simp only at h1 h2 h3 h4
  have hdot : (".": String).data = ['.'] := rfl
  apply String.ext
  simp only [string4, dottedDecimal, String.data_append, h1, h2, h3, h4, hdot,
    List.getD_cons_zero, List.getD_cons_succ, List.append_assoc, List.cons_append,
    List.nil_append]

theorem IP_String_four (lib : IPv6Lib) (w x y z : Nat) :
    IP.String lib [w, x, y, z] = string4 [w, x, y, z] := by
  simp [IP.String, IP.To4]

theorem IP_Mask_mapped (a b c d m0 m1 m2 m3 : Nat) :
    IP.Mask (v4InV6Pfx ++ [a, b, c, d]) [m0, m1, m2, m3] =
      [a &&& m0, b &&& m1, c &&& m2, d &&& m3] := by
  simp [IP.Mask, v4InV6Pfx]

theorem netmask_string : ∀ n : Fin 33,
    string4 (CIDRMask n.val 32) = dottedDecimal (netmaskValue n.val) := by
  decide

theorem ParseCIDR_cidrString (lib : IPv6Lib) (a b c d n : Nat) (ha : a < 256) (hb : b < 256)
    (hc : c < 256) (hd : d < 256) (hn : n ≤ 32) :
    ParseCIDR lib (cidrString a b c d n) =
      .ok (v4InV6Pfx ++ [a, b, c, d],
        { IP := IP.Mask (v4InV6Pfx ++ [a, b, c, d]) (CIDRMask n 32), Mask := CIDRMask n 32 }) := by
  have hdt := dtoi_prefix_length ⟨n, by omega⟩
  simp only at hdt
  unfold ParseCIDR
  rw [cidrString_data a b c d n ha hb hc hd,
    span_slash _ _ (dottedChars_no_slash a b c d ha hb hc hd)]
  simp only [ParseAddr_dottedChars lib a b c d ha hb hc hd, Addr.Zone, hdt, Addr.BitLen,
    Addr.As16]
  simp [hn]

/-- C1. For every IPv4 CIDR string `a.b.c.d/n` (bytes `a`, `b`, `c`, `d`, and `n ≤ 32`),
`CIDRToNetmask` returns a `nil` error and the string `<network> <mask>`: the network is
`a.b.c.d` with its low `32 - n` bits cleared, the mask has `n` leading one bits, both are
in dotted decimal, and exactly one space separates them. -/
theorem CIDRToNetmask_ipv4_cidr (lib : IPv6Lib) (a b c d n : Nat) (ha : a < 256)
    (hb : b < 256) (hc : c < 256) (hd : d < 256) (hn : n ≤ 32) :
    CIDRToNetmask lib (cidrString a b c d n) =
      (dottedDecimal (clearHostBits (ipv4Value a b c d) n) ++ " " ++
        dottedDecimal (netmaskValue n), none) := by
  have hcontains : (cidrString a b c d n).data.contains '/' = true := by
    rw [cidrString_data a b c d n ha hb hc hd]
    simp
  have hmask := netmask_string ⟨n, by omega⟩
  have hbytes := CIDRMask_bytes ⟨n, by omega⟩
  simp only at hmask hbytes
  have k0 : onesInByte n 0 < 9 := by unfold onesInByte; omega
  have k1 : onesInByte n 1 < 9 := by unfold onesInByte; omega
  have k2 : onesInByte n 2 < 9 := by unfold onesInByte; omega
  have k3 : onesInByte n 3 < 9 := by unfold onesInByte; omega
  have l0 := land_mask_byte ⟨a, ha⟩ ⟨onesInByte n 0, k0⟩
  have l1 := land_mask_byte ⟨b, hb⟩ ⟨onesInByte n 1, k1⟩
  have l2 := land_mask_byte ⟨c, hc⟩ ⟨onesInByte n 2, k2⟩
  have l3 := land_mask_byte ⟨d, hd⟩ ⟨onesInByte n 3, k3⟩
  simp only at l0 l1 l2 l3
  obtain ⟨e0, e1, e2, e3⟩ := clearHostBits_bytes a b c d n ha hb hc hd hn
  have hnet : IP.String lib (IP.Mask (v4InV6Pfx ++ [a, b, c, d]) (CIDRMask n 32)) =
      dottedDecimal (clearHostBits (ipv4Value a b c d) n) := by
    rw [hbytes, IP_Mask_mapped, IP_String_four, l0, l1, l2, l3, ← e0, ← e1, ← e2, ← e3,
      string4_dotted]
  have hm : IP.String lib (CIDRMask n 32) = dottedDecimal (netmaskValue n) := by
    rw [← hmask, hbytes, IP_String_four]
  unfold CIDRToNetmask
  simp only [hcontains, not_true_eq_false, if_false,
    ParseCIDR_cidrString lib a b c d n ha hb hc hd hn, hnet, hm]

theorem CIDRToNetmask_ipv4_cidr_witness :
    CIDRToNetmask ipv4Only (cidrString 192 168 1 77 20) =
        (dottedDecimal (clearHostBits (ipv4Value 192 168 1 77) 20) ++ " " ++
          dottedDecimal (netmaskValue 20), none) ∧
      cidrString 192 168 1 77 20 = "192.168.1.77/20" ∧
      dottedDecimal (clearHostBits (ipv4Value 192 168 1 77) 20) ++ " " ++
        dottedDecimal (netmaskValue 20) = "192.168.0.0 255.255.240.0" :=
  ⟨CIDRToNetmask_ipv4_cidr ipv4Only 192 168 1 77 20 (by decide) (by decide) (by decide)
    (by decide) (by decide), by decide, by decide⟩

/-! ## `CIDRToNetmask`: errors -/

/-- C2. `CIDRToNetmask` is a total function of its input string: it returns an error
exactly when the input is neither a slash-free string that `net.ParseIP` accepts nor a
string with a slash that `net.ParseCIDR` accepts; with an error the result string is
empty; and `"not-a-cidr"` yields an error. -/
theorem CIDRToNetmask_error_iff (lib : IPv6Lib) (cidr : String) :
    ((CIDRToNetmask lib cidr).2 ≠ none ↔
      ¬ (('/' ∉ cidr.data ∧ ParseIP lib cidr ≠ none) ∨
         ('/' ∈ cidr.data ∧ ∃ r, ParseCIDR lib cidr = .ok r))) ∧
    ((CIDRToNetmask lib cidr).2 ≠ none → (CIDRToNetmask lib cidr).1 = "") ∧
    CIDRToNetmask lib "not-a-cidr" = ("", some "invalid IP: not-a-cidr") := by
  refine ⟨?_, ?_, ?_⟩
  · unfold CIDRToNetmask
    by_cases h : '/' ∈ cidr.data
    · cases hp : ParseCIDR lib cidr with
      | error e => simp [h, hp]
      | ok r => simp [h, hp]
    · cases hp : ParseIP lib cidr with
      | none => simp [h, hp]
      | some ip => simp [h, hp]
  · unfold CIDRToNetmask
    by_cases h : '/' ∈ cidr.data
    · cases hp : ParseCIDR lib cidr with
      | error e => simp [h, hp]
      | ok r => simp [h, hp]
    · cases hp : ParseIP lib cidr with
      | none => simp [h, hp]
      | some ip => simp [h, hp]
  · have h : ParseIP lib "not-a-cidr" = none := by
      simp [ParseIP, ParseAddr, ParseAddr.scan]
    have hs : ¬ (("not-a-cidr" : String).data.contains '/' = true) := by decide
    simp only [CIDRToNetmask, hs, not_false_eq_true, if_true, h]
    rfl

/-! ## The connect push builder -/

theorem classifyRoutes_foldl (routes : List Network) (b : Bool) (acc : List String) :
    routes.foldl (fun st route =>
        if IsDefaultRoute route.CIDR then (true, st.2) else (st.1, st.2 ++ [route.CIDR]))
        (b, acc) =
      (b || routes.any (fun r => IsDefaultRoute r.CIDR),
        acc ++ (routes.filter (fun r => !IsDefaultRoute r.CIDR)).map (fun r => r.CIDR)) := by
  induction routes generalizing b acc with
  | nil => simp
  | cons r rs ih =>
    by_cases h : IsDefaultRoute r.CIDR = true
    · simp [List.foldl_cons, h, ih]
    · simp [List.foldl_cons, h, ih]

theorem classifyRoutes_eq (routes : List Network) :
    classifyRoutes routes =
      (routes.any (fun r => IsDefaultRoute r.CIDR),
        (routes.filter (fun r => !IsDefaultRoute r.CIDR)).map (fun r => r.CIDR)) := by
  unfold classifyRoutes
  rw [classifyRoutes_foldl]
  simp

theorem pushRoutes_foldl (lib : IPv6Lib) (networks : List String) (out : List String) :
    networks.foldl (fun out cidr =>
        match CIDRToNetmask lib cidr with
        | (_, some _) => out
        | (route, none) => out ++ ["push \"route " ++ route ++ "\"\n"]) out =
      out ++ networks.filterMap (fun cidr =>
        match CIDRToNetmask lib cidr with
        | (_, some _) => none
        | (route, none) => some ("push \"route " ++ route ++ "\"\n")) := by
  induction networks generalizing out with
  | nil => simp
  | cons c cs ih =>
    rw [List.foldl_cons, ih]
    rcases hc : CIDRToNetmask lib c with ⟨route, _ | e⟩
    · simp [List.filterMap_cons, hc]
    · simp [List.filterMap_cons, hc]

/-- C3. When the route list holds at least one default route, the push builder writes
the single directive `push "redirect-gateway def1"` and nothing else, so the generated
configuration has exactly one redirect-gateway line and no `push "route ..."` line,
whatever else the list holds and in whatever order. -/
theorem pushDirectives_default_route (lib : IPv6Lib) (routes : List Network)
    (h : ∃ r ∈ routes, IsDefaultRoute r.CIDR = true) :
    pushDirectives lib routes = ["push \"redirect-gateway def1\"\n"] ∧
      ∀ user : UserResponse, configContent lib user routes =
        (if user.VpnIP ≠ "" then "ifconfig-push " ++ user.VpnIP ++ " 255.255.255.0\n"
          else "") ++ "push \"redirect-gateway def1\"\n" := by
  have hany : routes.any (fun r => IsDefaultRoute r.CIDR) = true := by
    rw [List.any_eq_true]
    exact h
  have hp : pushDirectives lib routes = ["push \"redirect-gateway def1\"\n"] := by
    simp only [pushDirectives, classifyRoutes_eq, hany, if_true]
  refine ⟨hp, fun user => ?_⟩
  simp only [configContent, hp, String.join, List.foldl_cons, List.foldl_nil]
  rfl

theorem pushDirectives_default_route_witness :
    pushDirectives ipv4Only
        [⟨"1", "lan", "10.0.0.0/8", ""⟩, ⟨"2", "all", "0.0.0.0/0", ""⟩,
          ⟨"3", "all6", "::/0", ""⟩, ⟨"4", "dmz", "192.168.1.0/24", ""⟩] =
      ["push \"redirect-gateway def1\"\n"] :=
  (pushDirectives_default_route ipv4Only
    [⟨"1", "lan", "10.0.0.0/8", ""⟩, ⟨"2", "all", "0.0.0.0/0", ""⟩,
      ⟨"3", "all6", "::/0", ""⟩, ⟨"4", "dmz", "192.168.1.0/24", ""⟩]
    ⟨⟨"2", "all", "0.0.0.0/0", ""⟩, by decide, by decide⟩).1

/-- C4, as the code has it. When the route list holds no default route and only CIDRs
that `CIDRToNetmask` accepts, the push builder writes exactly one directive
`push "route <net> <mask>"` per route of the list, in list order, where `<net> <mask>` is
`CIDRToNetmask` of that route's CIDR; nothing is deduplicated, so a CIDR the list repeats
is pushed once per occurrence. -/
theorem pushDirectives_specific_routes (lib : IPv6Lib) (routes : List Network)
    (hnodef : ∀ r ∈ routes, IsDefaultRoute r.CIDR = false)
    (hvalid : ∀ r ∈ routes, (CIDRToNetmask lib r.CIDR).2 = none) :
    pushDirectives lib routes =
      routes.map (fun r => "push \"route " ++ (CIDRToNetmask lib r.CIDR).1 ++ "\"\n") := by
  have hany : routes.any (fun r => IsDefaultRoute r.CIDR) = false := by
    rw [List.any_eq_false]
    intro r hr
    simp [hnodef r hr]
  have hfilter : routes.filter (fun r => !IsDefaultRoute r.CIDR) = routes := by
    rw [List.filter_eq_self]
    intro r hr
    simp [hnodef r hr]
  simp only [pushDirectives, classifyRoutes_eq, hany, hfilter, pushRoutes_foldl,
    List.nil_append, Bool.false_eq_true, if_false]
  clear hany hfilter hnodef
  induction routes with
  | nil => rfl
  | cons r rs ih =>
    have hr := hvalid r (List.mem_cons_self r rs)
    rcases hc : CIDRToNetmask lib r.CIDR with ⟨route, _ | e⟩
    · simp only [List.map_cons, List.filterMap_cons, hc]
      rw [ih (fun r1 h1 => hvalid r1 (List.mem_cons_of_mem r h1))]
    · rw [hc] at hr
      cases hr

theorem pushDirectives_specific_routes_witness :
    pushDirectives ipv4Only [⟨"1", "lan", "10.0.0.0/8", ""⟩, ⟨"2", "host", "10.1.2.3", ""⟩] =
      ["push \"route 10.0.0.0 255.0.0.0\"\n", "push \"route 10.1.2.3 255.255.255.255\"\n"] :=
  pushDirectives_specific_routes ipv4Only
    [⟨"1", "lan", "10.0.0.0/8", ""⟩, ⟨"2", "host", "10.1.2.3", ""⟩] (by decide) (by decide)

/-- C4, as stated, fails. The list below holds no default route and only valid CIDRs, and
its only distinct CIDR is `10.0.0.0/8`, yet the builder writes the same route directive
twice. -/
theorem pushDirectives_repeats_cidr :
    (∀ r ∈ [(⟨"1", "lan", "10.0.0.0/8", ""⟩ : Network), ⟨"1", "lan", "10.0.0.0/8", ""⟩],
        IsDefaultRoute r.CIDR = false ∧ (CIDRToNetmask ipv4Only r.CIDR).2 = none) ∧
      ([(⟨"1", "lan", "10.0.0.0/8", ""⟩ : Network), ⟨"1", "lan", "10.0.0.0/8", ""⟩].map
        (fun r => r.CIDR)).dedup = ["10.0.0.0/8"] ∧
      pushDirectives ipv4Only
          [⟨"1", "lan", "10.0.0.0/8", ""⟩, ⟨"1", "lan", "10.0.0.0/8", ""⟩] =
        ["push \"route 10.0.0.0 255.0.0.0\"\n", "push \"route 10.0.0.0 255.0.0.0\"\n"] := by
  decide

/-! ## The firewall rule compiler: determinism -/

theorem sortStrings_perm {l1 l2 : List String} (h : l1.Perm l2) :
    sortStrings l1 = sortStrings l2 := by
  unfold sortStrings
  apply List.eq_of_perm_of_sorted (r := goStringLE)
  · exact ((List.perm_insertionSort goStringLE l1).trans h).trans
      (List.perm_insertionSort goStringLE l2).symm
  · exact List.sorted_insertionSort goStringLE l1
  · exact List.sorted_insertionSort goStringLE l2

/-- C5. For both backends, two user lists with the same users in the same order that
differ only by a permutation of each user's `Networks` compile to the same text; in
particular compiling a list twice gives the same text. -/
theorem GenerateRules_network_order (n : NFTables) (i : IPTables)
    (us vs : List UserWithNetworks) (h : List.Forall₂ sameUpToNetworkOrder us vs) :
    n.GenerateRules us = n.GenerateRules vs ∧ i.GenerateRules us = i.GenerateRules vs := by
  constructor
  · unfold NFTables.GenerateRules
    generalize ("# Auto-generated VPN user rules (nftables)\n" ++
      "# Do not edit manually - changes will be overwritten\n\n" : String) = acc
    induction h generalizing acc with
    | nil => rfl
    | cons huv _ ih =>
      obtain ⟨h1, h2, h3⟩ := huv
      simp only [List.foldl_cons, h1, h2, sortStrings_perm h3]
      exact ih _
  · unfold IPTables.GenerateRules
    simp only
    congr 1
    generalize ("# Auto-generated VPN user rules (iptables)\n" ++
      "# Do not edit manually - changes will be overwritten\n\n" ++ "*filter\n" ++
      (":" ++ i.chainName ++ " - [0:0]\n") ++ ("-F " ++ i.chainName ++ "\n") : String) = acc
    induction h generalizing acc with
    | nil => rfl
    | cons huv _ ih =>
      obtain ⟨h1, h2, h3⟩ := huv
      simp only [List.foldl_cons, h1, h2, sortStrings_perm h3]
      exact ih _

theorem GenerateRules_network_order_witness :
    (⟨"", ""⟩ : NFTables).GenerateRules
        [⟨"alice", "10.8.0.2", ["192.168.1.0/24", "10.0.0.0/8"]⟩] =
      (⟨"", ""⟩ : NFTables).GenerateRules
        [⟨"alice", "10.8.0.2", ["10.0.0.0/8", "192.168.1.0/24"]⟩] ∧
    (⟨"VPN_USERS", "", ""⟩ : IPTables).GenerateRules
        [⟨"alice", "10.8.0.2", ["192.168.1.0/24", "10.0.0.0/8"]⟩] =
      (⟨"VPN_USERS", "", ""⟩ : IPTables).GenerateRules
        [⟨"alice", "10.8.0.2", ["10.0.0.0/8", "192.168.1.0/24"]⟩] :=
  GenerateRules_network_order ⟨"", ""⟩ ⟨"VPN_USERS", "", ""⟩
    [⟨"alice", "10.8.0.2", ["192.168.1.0/24", "10.0.0.0/8"]⟩]
    [⟨"alice", "10.8.0.2", ["10.0.0.0/8", "192.168.1.0/24"]⟩]
    (List.Forall₂.cons ⟨rfl, rfl, List.Perm.swap _ _ []⟩ List.Forall₂.nil)

/-! ## Batch aggregation: `CollectUserNetworks` -/

theorem collectNetworks_foldl (routes : List Network) (acc : List String) :
    routes.foldl (fun networks route =>
        if route.CIDR = "0.0.0.0/0" ∨ route.CIDR = "0/0" then networks
        else networks ++ [route.CIDR]) acc =
      acc ++ (routes.filter
        (fun r => !decide (r.CIDR = "0.0.0.0/0" ∨ r.CIDR = "0/0"))).map (fun r => r.CIDR) := by
  induction routes generalizing acc with
  | nil => simp
  | cons r rs ih =>
    by_cases h : r.CIDR = "0.0.0.0/0" ∨ r.CIDR = "0/0"
    · rcases h with h | h <;> simp [List.foldl_cons, h, ih, List.filter_cons]
    · obtain ⟨h1, h2⟩ := not_or.mp h
      simp [List.foldl_cons, h1, h2, ih, List.filter_cons]

/-- The networks `CollectUserNetworks` keeps are the routes' CIDRs other than `0.0.0.0/0`
and `0/0`, in order. -/
theorem collectNetworks_eq (routes : List Network) :
    collectNetworks routes =
      (routes.filter
        (fun r => !decide (r.CIDR = "0.0.0.0/0" ∨ r.CIDR = "0/0"))).map (fun r => r.CIDR) := by
  unfold collectNetworks
  rw [collectNetworks_foldl]
  simp

/-- For every input `CollectUserNetworks` returns a `nil` error, and its result lists, in
input order, the users with a non-empty `VpnIP` whose route fetch succeeds and that have a
route other than `0.0.0.0/0` and `0/0`. -/
theorem CollectUserNetworks_eq (env : Env) (client : Client) (users : List UserResponse) :
    CollectUserNetworks env client users = (users.filterMap (collectOne env client), none) := by
  unfold CollectUserNetworks
  simp only [Prod.mk.injEq, and_true]
  suffices h : ∀ acc : List UserWithNetworks,
      users.foldl (fun result user =>
        if user.VpnIP = "" then result
        else
          match client.GetUserRoutes env user.ID with
          | (_, some _) => result
          | (routes, none) =>
            if (collectNetworks routes).length > 0 then
              result ++ [{ Username := user.Username, VpnIP := user.VpnIP
                           Networks := collectNetworks routes }]
            else result) acc = acc ++ users.filterMap (collectOne env client) by
    simpa using h []
  induction users with
  | nil => simp
  | cons u us ih =>
    intro acc
    rw [List.foldl_cons, ih]
    by_cases hip : u.VpnIP = ""
    · simp [collectOne, hip]
    · rcases hr : client.GetUserRoutes env u.ID with ⟨routes, _ | e⟩
      · by_cases hlen : (collectNetworks routes).length > 0
        · simp [collectOne, hip, hr, hlen]
        · simp [collectOne, hip, hr, hlen]
      · simp [collectOne, hip, hr]

/-- C6, at the failing input. In token mode the only route of `alice` is the default
route `::/0`: her fetch succeeds, every route of hers is a default route, and
`CollectUserNetworks` still lists her, with `::/0` as her network. -/
theorem CollectUserNetworks_keeps_v6_default_user :
    tokenClient.GetUserRoutes tableDirectory alice.ID = ([⟨"", "", "::/0", ""⟩], none) ∧
      ((tokenClient.GetUserRoutes tableDirectory alice.ID).1.filter
        (fun r => !IsDefaultRoute r.CIDR)) = [] ∧
      CollectUserNetworks tableDirectory tokenClient [alice] =
        ([⟨"alice", "10.8.0.2", ["::/0"]⟩], none) := by
  decide

/-- C7, at the failing input. In token mode the routes of `bob` are `10.0.0.0/8` and
`::/0`; the networks `CollectUserNetworks` returns for him include `::/0`, which
`IsDefaultRoute` classifies as a default route. -/
theorem CollectUserNetworks_returns_v6_default :
    CollectUserNetworks tableDirectory tokenClient [bob] =
        ([⟨"bob", "10.8.0.3", ["10.0.0.0/8", "::/0"]⟩], none) ∧
      IsDefaultRoute "::/0" = true := by
  decide

/-! ## Legacy route lookup: flattening groups -/

theorem mapSet_keys (m : NetworkMap) (k : String) (v : Network) :
    (mapSet m k v).map Prod.fst =
      if k ∈ m.map Prod.fst then m.map Prod.fst else m.map Prod.fst ++ [k] := by
  induction m with
  | nil => simp [mapSet]
  | cons kv m ih =>
    obtain ⟨k1, v1⟩ := kv
    by_cases h : k1 = k
    · simp [mapSet, h]
    · have h2 : ¬ k = k1 := fun e => h e.symm
      by_cases hm : k ∈ m.map Prod.fst
      · simp only [mapSet, h, if_false, List.map_cons, ih, hm, if_true, List.mem_cons, h2,
          false_or]
      · simp only [mapSet, h, if_false, List.map_cons, ih, hm, List.mem_cons, h2,
          false_or, List.cons_append]

theorem mapSet_mem (m : NetworkMap) (k : String) (v : Network) :
    ∀ kv ∈ mapSet m k v, kv = (k, v) ∨ kv ∈ m := by
  induction m with
  | nil => simp [mapSet]
  | cons kv1 m ih =>
    obtain ⟨k1, v1⟩ := kv1
    intro kv hkv
    by_cases h : k1 = k
    · simp only [mapSet, h, if_true, List.mem_cons] at hkv
      rcases hkv with hkv | hkv
      · exact Or.inl hkv
      · exact Or.inr (List.mem_cons_of_mem _ hkv)
    · simp only [mapSet, h, if_false, List.mem_cons] at hkv
      rcases hkv with hkv | hkv
      · exact Or.inr (hkv ▸ List.mem_cons_self _ _)
      · rcases ih kv hkv with h1 | h1
        · exact Or.inl h1
        · exact Or.inr (List.mem_cons_of_mem _ h1)

theorem flatten_invariant (ns : List Network) (m : NetworkMap)
    (hnd : (m.map Prod.fst).Nodup) :
    ((ns.foldl (fun m1 network => mapSet m1 network.CIDR network) m).map Prod.fst).Nodup ∧
      (∀ c, c ∈ (ns.foldl (fun m1 network => mapSet m1 network.CIDR network) m).map Prod.fst ↔
        c ∈ m.map Prod.fst ∨ c ∈ ns.map (fun n => n.CIDR)) ∧
      (∀ kv ∈ ns.foldl (fun m1 network => mapSet m1 network.CIDR network) m,
        kv ∈ m ∨ (kv.2 ∈ ns ∧ kv.1 = kv.2.CIDR)) := by
  induction ns generalizing m with
  | nil => simp [hnd]
  | cons n ns ih =>
    have hkeys := mapSet_keys m n.CIDR n
    have hnd1 : ((mapSet m n.CIDR n).map Prod.fst).Nodup := by
      rw [hkeys]
      by_cases hm : n.CIDR ∈ m.map Prod.fst
      · simpa [hm] using hnd
      · simp only [hm, if_false]
        exact List.Nodup.append hnd (List.nodup_singleton _) (by simpa using hm)
    obtain ⟨i1, i2, i3⟩ := ih (mapSet m n.CIDR n) hnd1
    refine ⟨i1, ?_, ?_⟩
    · intro c
      rw [List.foldl_cons, i2 c, hkeys]
      by_cases hm : n.CIDR ∈ m.map Prod.fst
      · simp only [hm, if_true, List.map_cons, List.mem_cons]
        constructor
        · rintro (h | h)
          · exact Or.inl h
          · exact Or.inr (Or.inr h)
        · rintro (h | h | h)
          · exact Or.inl h
          · exact Or.inl (h ▸ hm)
          · exact Or.inr h
      · simp only [hm, if_false, List.map_cons, List.mem_cons, List.mem_append,
          List.mem_singleton]
        tauto
    · intro kv hkv
      rw [List.foldl_cons] at hkv
      rcases i3 kv hkv with h | ⟨h1, h2⟩
      · rcases mapSet_mem m n.CIDR n kv h with h3 | h3
        · right
          subst h3
          exact ⟨List.mem_cons_self _ _, rfl⟩
        · exact Or.inl h3
      · exact Or.inr ⟨List.mem_cons_of_mem _ h1, h2⟩

theorem flattenGroups_eq (groups : List GroupWithNetworks) :
    flattenGroups groups =
      (groups.flatMap (fun g => g.Networks)).foldl
        (fun m1 network => mapSet m1 network.CIDR network) [] := by
  unfold flattenGroups
  generalize ([] : NetworkMap) = m
  induction groups generalizing m with
  | nil => rfl
  | cons g gs ih => simp only [List.foldl_cons, List.flatMap_cons, List.foldl_append, ih]

/-- C10. In legacy mode, when the groups endpoint answers with status 200 and a body that
decodes, `GetUserRoutes` returns no error and a list in which no two networks share a CIDR,
whose CIDRs are exactly the CIDRs of the networks of all groups, and whose records are
records of the groups; so a CIDR that occurs in several groups is returned exactly once. -/
theorem GetUserRoutes_legacy_flatten (env : Env) (c : Client) (userID : String)
    (resp : Response) (groupsResp : GroupsResponse) (hlegacy : c.apiToken = "")
    (hdo : env.Do (c.newRequest "GET" ("/api/v1/users/" ++ userID ++ "/groups") none true) =
      .ok resp)
    (hstatus : resp.StatusCode = 200) (hdec : env.decodeGroups resp.Body = .ok groupsResp) :
    ∃ networks : List Network, c.GetUserRoutes env userID = (networks, none) ∧
      (networks.map (fun n => n.CIDR)).Nodup ∧
      (∀ cidr, cidr ∈ networks.map (fun n => n.CIDR) ↔
        ∃ g ∈ groupsResp.Groups, ∃ n ∈ g.Networks, n.CIDR = cidr) ∧
      (∀ n ∈ networks, ∃ g ∈ groupsResp.Groups, n ∈ g.Networks) ∧
      (∀ g ∈ groupsResp.Groups, ∀ n ∈ g.Networks,
        (networks.map (fun n => n.CIDR)).count n.CIDR = 1) := by
  obtain ⟨i1, i2, i3⟩ :=
    flatten_invariant (groupsResp.Groups.flatMap (fun g => g.Networks)) [] (by simp)
  rw [← flattenGroups_eq] at i1 i2 i3
  have hperm := env.rangeOrder_perm (flattenGroups groupsResp.Groups)
  have hcidr : (env.rangeOrder (flattenGroups groupsResp.Groups)).map (fun kv => kv.2.CIDR) =
      (env.rangeOrder (flattenGroups groupsResp.Groups)).map Prod.fst := by
    apply List.map_congr_left
    intro kv hkv
    rcases i3 kv (hperm.mem_iff.mp hkv) with h | ⟨_, h⟩
    · cases h
    · exact h.symm
  have hnodup : (((env.rangeOrder (flattenGroups groupsResp.Groups)).map
      (fun kv => kv.2)).map (fun n => n.CIDR)).Nodup := by
    rw [List.map_map]
    exact (hcidr ▸ ((hperm.map Prod.fst).nodup_iff).mpr i1 :
      ((env.rangeOrder (flattenGroups groupsResp.Groups)).map (fun kv => kv.2.CIDR)).Nodup)
  have hmem : ∀ cidr, cidr ∈ ((env.rangeOrder (flattenGroups groupsResp.Groups)).map
      (fun kv => kv.2)).map (fun n => n.CIDR) ↔
        ∃ g ∈ groupsResp.Groups, ∃ n ∈ g.Networks, n.CIDR = cidr := by
    intro cidr
    rw [List.map_map]
    change cidr ∈ (env.rangeOrder (flattenGroups groupsResp.Groups)).map
      (fun kv => kv.2.CIDR) ↔ _
    rw [hcidr, (hperm.map Prod.fst).mem_iff, i2 cidr]
    simp only [List.map_nil, List.not_mem_nil, false_or, List.mem_map, List.mem_flatMap]
    constructor
    · rintro ⟨n, ⟨g, hg, hn⟩, rfl⟩
      exact ⟨g, hg, n, hn, rfl⟩
    · rintro ⟨g, hg, n, hn, rfl⟩
      exact ⟨n, ⟨g, hg, hn⟩, rfl⟩
  refine ⟨(env.rangeOrder (flattenGroups groupsResp.Groups)).map (fun kv => kv.2), ?_, hnodup,
    hmem, ?_, ?_⟩
  · simp only [Client.GetUserRoutes, Client.doRequest, hlegacy, if_true, hdo, hstatus,
      ne_eq, not_true_eq_false, if_false, hdec]
  · intro n hn
    obtain ⟨kv, hkv, rfl⟩ := List.mem_map.mp hn
    rcases i3 kv (hperm.mem_iff.mp hkv) with h | ⟨h, _⟩
    · cases h
    · obtain ⟨g, hg, hn1⟩ := List.mem_flatMap.mp h
      exact ⟨g, hg, hn1⟩
  · intro g hg n hn
    exact List.count_eq_one_of_mem hnodup ((hmem n.CIDR).mpr ⟨g, hg, n, hn, rfl⟩)

theorem GetUserRoutes_legacy_flatten_witness :
    ∃ networks : List Network,
      legacyClient.GetUserRoutes tableDirectory "u1" = (networks, none) ∧
      (networks.map (fun n => n.CIDR)).Nodup ∧
      (∀ cidr, cidr ∈ networks.map (fun n => n.CIDR) ↔
        ∃ g ∈ groupsOfU1.Groups, ∃ n ∈ g.Networks, n.CIDR = cidr) ∧
      (∀ n ∈ networks, ∃ g ∈ groupsOfU1.Groups, n ∈ g.Networks) ∧
      (∀ g ∈ groupsOfU1.Groups, ∀ n ∈ g.Networks,
        (networks.map (fun n => n.CIDR)).count n.CIDR = 1) :=
  GetUserRoutes_legacy_flatten tableDirectory legacyClient "u1" ⟨200, bodyGroups⟩ groupsOfU1
    rfl rfl rfl rfl

theorem GetUserRoutes_legacy_flatten_value :
    legacyClient.GetUserRoutes tableDirectory "u1" =
      ([⟨"n2", "", "192.168.1.0/24", ""⟩, ⟨"n3", "", "10.0.0.0/8", ""⟩], none) := by
  decide

/-! ## Legacy listing: `GetAllActiveUsers` -/

theorem GetAllActiveUsers_loop_pages (env : Env) (c : Client) (N : Nat)
    (pages : Nat → List UserResponse)
    (hserve : ∀ p, 1 ≤ p → p ≤ N → ∃ resp listResp,
      env.Do (c.newRequest "GET" (usersPagePath p) none true) = .ok resp ∧
      env.decodeUserList resp.Body = .ok listResp ∧
      listResp.Users = pages p ∧ listResp.TotalPages = (N : Int)) :
    ∀ (k fuel page : Nat) (acc : List UserResponse) (sent : List Request),
      1 ≤ page → page + k = N → k < fuel →
      Client.GetAllActiveUsers.loop env c fuel page acc sent =
        some { users := acc ++ (List.range' page (k + 1)).flatMap pages
               err := none
               sent := sent ++ (List.range' page (k + 1)).map
                 (fun p => c.newRequest "GET" (usersPagePath p) none true) } := by
  intro k
  induction k with
  | zero =>
    intro fuel page acc sent h1 hN hfuel
    obtain ⟨f, rfl⟩ : ∃ f, fuel = f + 1 := ⟨fuel - 1, by omega⟩
    obtain ⟨resp, listResp, hdo, hdec, husers, htotal⟩ := hserve page h1 (by omega)
    have hge : (page : Int) ≥ listResp.TotalPages := by
      rw [htotal]
      exact_mod_cast (by omega : N ≤ page)
    simp [Client.GetAllActiveUsers.loop, Client.doRequest, hdo, hdec, hge, husers,
      List.range'_one]
  | succ k ih =>
    intro fuel page acc sent h1 hN hfuel
    obtain ⟨f, rfl⟩ : ∃ f, fuel = f + 1 := ⟨fuel - 1, by omega⟩
    obtain ⟨resp, listResp, hdo, hdec, husers, htotal⟩ := hserve page h1 (by omega)
    have hlt : ¬ (page : Int) ≥ listResp.TotalPages := by
      rw [htotal]
      have : page < N := by omega
      intro hge
      have : (N : Int) ≤ page := hge
      omega
    rw [Client.GetAllActiveUsers.loop]
    simp only [Client.doRequest, hdo, hdec, hlt, if_false]
    rw [ih f (page + 1) _ _ (by omega) (by omega) (by omega)]
    simp [husers, List.range'_succ page (k + 1), List.append_assoc]

/-- C8. In legacy mode, when the listing endpoint serves `N ≥ 1` pages that each decode and
report `total_pages = N`, `GetAllActiveUsers` ends (any fuel of at least `N` iterations is
enough), sends the requests for pages `1, 2, ..., N` once each in that order and no other
request, and returns with no error the concatenation of the pages' user lists in page
order. -/
theorem GetAllActiveUsers_legacy_pages (env : Env) (c : Client) (N : Nat)
    (pages : Nat → List UserResponse) (hlegacy : c.apiToken = "") (hN : 1 ≤ N)
    (hserve : ∀ p, 1 ≤ p → p ≤ N → ∃ resp listResp,
      env.Do (c.newRequest "GET" (usersPagePath p) none true) = .ok resp ∧
      env.decodeUserList resp.Body = .ok listResp ∧
      listResp.Users = pages p ∧ listResp.TotalPages = (N : Int))
    (fuel : Nat) (hfuel : N ≤ fuel) :
    c.GetAllActiveUsers env fuel =
      some { users := (List.range' 1 N).flatMap pages
             err := none
             sent := (List.range' 1 N).map
               (fun p => c.newRequest "GET" (usersPagePath p) none true) } := by
  obtain ⟨k, rfl⟩ : ∃ k, N = k + 1 := ⟨N - 1, by omega⟩
  have h := GetAllActiveUsers_loop_pages env c (k + 1) pages hserve k fuel 1 [] []
    (by omega) (by omega) (by omega)
  simp only [Client.GetAllActiveUsers, hlegacy, ne_eq, not_true_eq_false, if_false, h,
    List.nil_append]

theorem GetAllActiveUsers_legacy_pages_witness :
    legacyClient.GetAllActiveUsers threePageDirectory 3 =
      some { users := (List.range' 1 3).flatMap (fun p => [userOfPage p])
             err := none
             sent := (List.range' 1 3).map
               (fun p => legacyClient.newRequest "GET" (usersPagePath p) none true) } :=
  GetAllActiveUsers_legacy_pages threePageDirectory legacyClient 3 (fun p => [userOfPage p])
    rfl (by decide)
    (fun p h1 h3 => by
      have hp : p = 1 ∨ p = 2 ∨ p = 3 := by omega
      rcases hp with rfl | rfl | rfl
      · exact ⟨⟨200, bodyOfPage 1⟩, _, rfl, rfl, rfl, rfl⟩
      · exact ⟨⟨200, bodyOfPage 2⟩, _, rfl, rfl, rfl, rfl⟩
      · exact ⟨⟨200, bodyOfPage 3⟩, _, rfl, rfl, rfl, rfl⟩)
    3 (by decide)

/-- A page whose request fails in transport, or whose body does not decode, ends the loop
with an error and no users. -/
theorem GetAllActiveUsers_loop_page_failure (env : Env) (c : Client) (fuel page : Nat)
    (acc : List UserResponse) (sent : List Request)
    (hfail : (∃ e, env.Do (c.newRequest "GET" (usersPagePath page) none true) = .error e) ∨
      ∃ resp e, env.Do (c.newRequest "GET" (usersPagePath page) none true) = .ok resp ∧
        env.decodeUserList resp.Body = .error e) :
    ∃ e, Client.GetAllActiveUsers.loop env c (fuel + 1) page acc sent =
      some { users := [], err := some e
             sent := sent ++ [c.newRequest "GET" (usersPagePath page) none true] } := by
  rcases hfail with ⟨e, hdo⟩ | ⟨resp, e, hdo, hdec⟩
  · refine ⟨"get users page " ++ toString page ++ " failed: " ++ e, ?_⟩
    simp only [Client.GetAllActiveUsers.loop, Client.doRequest, hdo]
  · refine ⟨"failed to decode users page " ++ toString page ++ ": " ++ e, ?_⟩
    simp only [Client.GetAllActiveUsers.loop, Client.doRequest, hdo, hdec]

/-- C9, at the failing input. In legacy mode page 1 is served with one user and
`total_pages = 2`, and the request for page 2 is answered with status 500 and the error
body `{"error":"internal","message":"database unavailable"}`. `GetAllActiveUsers` never
looks at the status code: the error body decodes into an empty page with `TotalPages = 0`,
the loop ends, and the call returns the users of page 1 with a `nil` error. -/
theorem GetAllActiveUsers_ignores_status :
    tableDirectory.Do (legacyClient.newRequest "GET" (usersPagePath 2) none true) =
        .ok ⟨500, bodyServerError⟩ ∧
      legacyClient.GetAllActiveUsers tableDirectory 2 =
        some { users := [alice], err := none
               sent := [legacyClient.newRequest "GET" (usersPagePath 1) none true,
                        legacyClient.newRequest "GET" (usersPagePath 2) none true] } :=
  ⟨rfl, by decide⟩

/-! ## `IsDefaultRoute` and bare addresses -/

/-- C15. For every string `s`, `IsDefaultRoute s` is true if and only if `s` is exactly
`0.0.0.0/0`, `0/0` or `::/0`; it is false for `10.0.0.0/8`. -/
theorem IsDefaultRoute_iff (s : String) :
    (IsDefaultRoute s = true ↔ s = "0.0.0.0/0" ∨ s = "0/0" ∨ s = "::/0") ∧
      IsDefaultRoute "10.0.0.0/8" = false := by
  constructor
  · simp [IsDefaultRoute, or_assoc]
  · decide

/-- C16. For every string without a slash that `net.ParseIP` accepts, `CIDRToNetmask`
returns a `nil` error and the input unchanged followed by ` 255.255.255.255`. -/
theorem CIDRToNetmask_bare_address (lib : IPv6Lib) (s : String) (hslash : '/' ∉ s.data)
    (hip : ParseIP lib s ≠ none) :
    CIDRToNetmask lib s = (s ++ " 255.255.255.255", none) := by
  unfold CIDRToNetmask
  cases hp : ParseIP lib s with
  | none => exact absurd hp hip
  | some ip => simp [hslash]

theorem CIDRToNetmask_bare_address_witness :
    CIDRToNetmask ipv4Only "10.0.0.5" = ("10.0.0.5 255.255.255.255", none) :=
  CIDRToNetmask_bare_address ipv4Only "10.0.0.5" (by decide) (by decide)

/-! ## `parseError` -/

/-- C19, as the code has it. `parseError` returns `<error>: <message>` when the body
decodes as an error object whose message is not empty, and the raw body with the status
code in every other case: a body that does not decode, or one whose message is empty. -/
theorem parseError_cases (env : Env) (c : Client) (resp : Response) :
    (∀ e : ErrorResponse, env.decodeError resp.Body = .ok e → e.Message ≠ "" →
        c.parseError env resp = e.Error ++ ": " ++ e.Message) ∧
      (∀ e : ErrorResponse, env.decodeError resp.Body = .ok e → e.Message = "" →
        c.parseError env resp =
          "API error: " ++ resp.Body ++ " (status " ++ toString resp.StatusCode ++ ")") ∧
      (∀ err : GoError, env.decodeError resp.Body = .error err →
        c.parseError env resp =
          "API error: " ++ resp.Body ++ " (status " ++ toString resp.StatusCode ++ ")") := by
  refine ⟨?_, ?_, ?_⟩
  · intro e hdec hmsg
    simp [Client.parseError, hdec, hmsg]
  · intro e hdec hmsg
    simp [Client.parseError, hdec, hmsg]
  · intro err hdec
    simp [Client.parseError, hdec]

/-- C19, as stated, fails. The body `{"error":"unauthorized","message":""}` of a 401
response decodes as an error object, yet `parseError` returns the raw body with the status
code and not `unauthorized: `. -/
theorem parseError_empty_message :
    emptyMessageDirectory.decodeError bodyEmptyMessage = .ok ⟨"unauthorized", ""⟩ ∧
      tokenClient.parseError emptyMessageDirectory ⟨401, bodyEmptyMessage⟩ =
        "API error: " ++ bodyEmptyMessage ++ " (status 401)" ∧
      tokenClient.parseError emptyMessageDirectory ⟨401, bodyEmptyMessage⟩ ≠
        "unauthorized" ++ ": " ++ "" :=
  ⟨rfl, by decide, by decide⟩

theorem parseError_cases_witness :
    tokenClient.parseError tableDirectory ⟨500, bodyServerError⟩ =
      "internal" ++ ": " ++ "database unavailable" :=
  (parseError_cases tableDirectory tokenClient ⟨500, bodyServerError⟩).1
    ⟨"internal", "database unavailable"⟩ rfl (by decide)

/-! ## The format of the generated rules -/

theorem foldl_append_join (l : List String) (acc : String) :
    l.foldl (fun r s => r ++ s) acc = acc ++ String.join l := by
  unfold String.join
  induction l generalizing acc with
  | nil => simp
  | cons x xs ih =>
    rw [List.foldl_cons, List.foldl_cons, ih (acc ++ x), ih ("" ++ x)]
    simp [String.append_assoc]

theorem join_cons (x : String) (xs : List String) :
    String.join (x :: xs) = x ++ String.join xs := by
  have h := foldl_append_join xs ("" ++ x)
  simp only [String.empty_append] at h
  simpa [String.join] using h

theorem join_append (l1 l2 : List String) :
    String.join (l1 ++ l2) = String.join l1 ++ String.join l2 := by
  induction l1 with
  | nil => simp [String.join]
  | cons x xs ih => simp [join_cons, ih, String.append_assoc]

theorem sortStrings_sorted_perm (l : List String) :
    (sortStrings l).Perm l ∧ (sortStrings l).Sorted goStringLE :=
  ⟨List.perm_insertionSort goStringLE l, List.sorted_insertionSort goStringLE l⟩

theorem intercalate_go_no_char (c : Char) (sep : String) (hsep : c ∉ sep.data)
    (l : List String) (hl : ∀ s ∈ l, c ∉ s.data) (acc : String) (hacc : c ∉ acc.data) :
    c ∉ (String.intercalate.go acc sep l).data := by
  induction l generalizing acc with
  | nil => simpa [String.intercalate.go] using hacc
  | cons a as ih =>
    rw [String.intercalate.go]
    apply ih (fun s hs => hl s (List.mem_cons_of_mem a hs))
    have ha := hl a (List.mem_cons_self a as)
    simp [String.data_append, hacc, hsep, ha]

theorem intercalate_no_char (c : Char) (sep : String) (hsep : c ∉ sep.data)
    (l : List String) (hl : ∀ s ∈ l, c ∉ s.data) :
    c ∉ (String.intercalate sep l).data := by
  cases l with
  | nil => simp [String.intercalate]
  | cons a as =>
    rw [String.intercalate]
    exact intercalate_go_no_char c sep hsep as
      (fun s hs => hl s (List.mem_cons_of_mem a hs)) a (hl a (List.mem_cons_self a as))

theorem NFTables_GenerateRules_foldl (users : List UserWithNetworks) (acc : String) :
    users.foldl (fun rules user =>
        rules ++ ("# " ++ user.Username ++ "\n") ++
          ("ip saddr " ++ user.VpnIP ++ " ip daddr \x7b " ++
            String.intercalate ", " (sortStrings user.Networks) ++ " \x7d accept\n")) acc =
      acc ++ String.join (users.flatMap (fun u =>
        ["# " ++ u.Username ++ "\n",
          "ip saddr " ++ u.VpnIP ++ " ip daddr \x7b " ++
            String.intercalate ", " (sortStrings u.Networks) ++ " \x7d accept\n"])) := by
  induction users generalizing acc with
  | nil => simp [String.join]
  | cons u us ih =>
    rw [List.foldl_cons, ih, List.flatMap_cons, join_append, join_cons, join_cons]
    simp [String.join, String.append_assoc]

/-- C17. For every user list whose usernames, VpnIPs and networks contain no newline,
`NFTables.GenerateRules` returns the two header lines and a blank line followed, per user
in input order, by the line `# <username>` and exactly one rule line
`ip saddr <VpnIP> ip daddr { n1, n2, ... } accept`, whose set is that user's networks in
ascending order joined by `, `; every listed string is one line of the text. -/
theorem NFTables_GenerateRules_format (n : NFTables) (users : List UserWithNetworks)
    (hnl : ∀ u ∈ users, '\n' ∉ u.Username.data ∧ '\n' ∉ u.VpnIP.data ∧
      ∀ net ∈ u.Networks, '\n' ∉ net.data) :
    n.GenerateRules users =
        String.join (["# Auto-generated VPN user rules (nftables)\n",
            "# Do not edit manually - changes will be overwritten\n", "\n"] ++
          users.flatMap (fun u =>
            ["# " ++ u.Username ++ "\n",
              "ip saddr " ++ u.VpnIP ++ " ip daddr \x7b " ++
                String.intercalate ", " (sortStrings u.Networks) ++ " \x7d accept\n"])) ∧
      (∀ u ∈ users, (sortStrings u.Networks).Perm u.Networks ∧
        (sortStrings u.Networks).Sorted goStringLE) ∧
      (∀ l ∈ (["# Auto-generated VPN user rules (nftables)\n",
            "# Do not edit manually - changes will be overwritten\n", "\n"] ++
          users.flatMap (fun u =>
            ["# " ++ u.Username ++ "\n",
              "ip saddr " ++ u.VpnIP ++ " ip daddr \x7b " ++
                String.intercalate ", " (sortStrings u.Networks) ++ " \x7d accept\n"])),
        isLine l) := by
  refine ⟨?_, fun u _ => sortStrings_sorted_perm u.Networks, ?_⟩
  · unfold NFTables.GenerateRules
    rw [NFTables_GenerateRules_foldl, join_append]
    congr 1
  · intro l hl
    rw [List.mem_append] at hl
    rcases hl with hl | hl
    · simp only [List.mem_cons, List.mem_singleton, List.not_mem_nil, or_false] at hl
      rcases hl with rfl | rfl | rfl
      · exact ⟨"# Auto-generated VPN user rules (nftables)", rfl, by decide⟩
      · exact ⟨"# Do not edit manually - changes will be overwritten", rfl, by decide⟩
      · exact ⟨"", rfl, by decide⟩
    · obtain ⟨u, hu, hlu⟩ := List.mem_flatMap.mp hl
      obtain ⟨h1, h2, h3⟩ := hnl u hu
      simp only [List.mem_cons, List.mem_singleton, List.not_mem_nil, or_false] at hlu
      rcases hlu with rfl | rfl
      · refine ⟨"# " ++ u.Username, rfl, ?_⟩
        have : '\n' ∉ ("# " : String).data := by decide
        simp [String.data_append, this, h1]
      · refine ⟨"ip saddr " ++ u.VpnIP ++ " ip daddr \x7b " ++
          String.intercalate ", " (sortStrings u.Networks) ++ " \x7d accept", ?_, ?_⟩
        · have e : (" \x7d accept\n" : String) = " \x7d accept" ++ "\n" := by decide
          rw [e, ← String.append_assoc]
        · have hi := intercalate_no_char '\n' ", " (by decide) (sortStrings u.Networks)
            (fun s hs => h3 s ((sortStrings_sorted_perm u.Networks).1.mem_iff.mp hs))
          have a1 : '\n' ∉ ("ip saddr " : String).data := by decide
          have a2 : '\n' ∉ (" ip daddr \x7b " : String).data := by decide
          have a3 : '\n' ∉ (" \x7d accept" : String).data := by decide
          simp [String.data_append, a1, a2, a3, h2, hi]

theorem NFTables_GenerateRules_format_witness :
    (⟨"", ""⟩ : NFTables).GenerateRules
        [⟨"alice", "10.8.0.2", ["192.168.1.0/24", "10.0.0.0/8"]⟩] =
      String.join (["# Auto-generated VPN user rules (nftables)\n",
          "# Do not edit manually - changes will be overwritten\n", "\n"] ++
        [⟨"alice", "10.8.0.2", ["192.168.1.0/24", "10.0.0.0/8"]⟩].flatMap
          (fun u : UserWithNetworks =>
            ["# " ++ u.Username ++ "\n",
              "ip saddr " ++ u.VpnIP ++ " ip daddr \x7b " ++
                String.intercalate ", " (sortStrings u.Networks) ++ " \x7d accept\n"])) :=
  (NFTables_GenerateRules_format ⟨"", ""⟩
    [⟨"alice", "10.8.0.2", ["192.168.1.0/24", "10.0.0.0/8"]⟩] (by decide)).1

theorem IPTables_rules_foldl (chain vpnIP : String) (networks : List String) (acc : String) :
    networks.foldl (fun rules1 network =>
        rules1 ++ ("-A " ++ chain ++ " -s " ++ vpnIP ++ " -d " ++ network ++
          " -j ACCEPT\n")) acc =
      acc ++ String.join (networks.map (fun network =>
        "-A " ++ chain ++ " -s " ++ vpnIP ++ " -d " ++ network ++ " -j ACCEPT\n")) := by
  induction networks generalizing acc with
  | nil => simp [String.join]
  | cons x xs ih =>
    rw [List.foldl_cons, ih, List.map_cons, join_cons]
    simp [String.append_assoc]

theorem IPTables_GenerateRules_foldl (chain : String) (users : List UserWithNetworks)
    (acc : String) :
    users.foldl (fun rules user =>
        (sortStrings user.Networks).foldl (fun rules1 network =>
          rules1 ++ ("-A " ++ chain ++ " -s " ++ user.VpnIP ++ " -d " ++ network ++
            " -j ACCEPT\n"))
          (rules ++ ("# " ++ user.Username ++ "\n"))) acc =
      acc ++ String.join (users.flatMap (fun u =>
        ("# " ++ u.Username ++ "\n") :: (sortStrings u.Networks).map (fun network =>
          "-A " ++ chain ++ " -s " ++ u.VpnIP ++ " -d " ++ network ++ " -j ACCEPT\n"))) := by
  induction users generalizing acc with
  | nil => simp [String.join]
  | cons u us ih =>
    rw [List.foldl_cons, ih, IPTables_rules_foldl, List.flatMap_cons, join_append, join_cons]
    simp [String.append_assoc]

/-- C18. For every user list, `IPTables.GenerateRules` returns the two header lines and a
blank line, then `*filter`, `:<chain> - [0:0]` and `-F <chain>`, then per user in input
order the line `# <username>` followed by one line
`-A <chain> -s <VpnIP> -d <network> -j ACCEPT` per network of that user in ascending
order, then `COMMIT` as the last line; `<chain>` is the configured chain name, or
`VPN_USERS` when the configured name is empty. -/
theorem IPTables_GenerateRules_format (cfg : IPTablesConfig) (users : List UserWithNetworks) :
    (NewIPTables cfg).GenerateRules users =
        String.join (["# Auto-generated VPN user rules (iptables)\n",
            "# Do not edit manually - changes will be overwritten\n", "\n", "*filter\n",
            ":" ++ (NewIPTables cfg).chainName ++ " - [0:0]\n",
            "-F " ++ (NewIPTables cfg).chainName ++ "\n"] ++
          users.flatMap (fun u =>
            ("# " ++ u.Username ++ "\n") :: (sortStrings u.Networks).map (fun network =>
              "-A " ++ (NewIPTables cfg).chainName ++ " -s " ++ u.VpnIP ++ " -d " ++ network ++
                " -j ACCEPT\n")) ++
          ["COMMIT\n"]) ∧
      (NewIPTables cfg).chainName =
        (if cfg.ChainName = "" then "VPN_USERS" else cfg.ChainName) ∧
      (∀ u ∈ users, (sortStrings u.Networks).Perm u.Networks ∧
        (sortStrings u.Networks).Sorted goStringLE) := by
  refine ⟨?_, rfl, fun u _ => sortStrings_sorted_perm u.Networks⟩
  unfold IPTables.GenerateRules
  simp only
  rw [IPTables_GenerateRules_foldl, join_append, join_append]
  simp [join_cons, String.join, String.append_assoc]

/-! ## The files -/

theorem lookup_filter_ne (path : String) (l : List (String × String)) :
    (l.filter (fun kv => kv.1 ≠ path)).lookup path = none := by
  induction l with
  | nil => rfl
  | cons kv l ih =>
    obtain ⟨k, v⟩ := kv
    by_cases h : k = path
    · simp only [List.filter_cons, h, ne_eq, not_true_eq_false, decide_False, if_false]
      exact ih
    · have h2 : (path == k) = false := by simpa using fun e => h e.symm
      simp only [List.filter_cons, h, ne_eq, not_false_eq_true, decide_True, if_true,
        List.lookup_cons, h2]
      exact ih

theorem ReadFile_Remove (fs : FileSystem) (path : String)
    (hexists : fs.ReadFile path ≠ none) (hperm : path ∉ fs.denied) :
    (fs.Remove path).1.ReadFile path = none := by
  simp only [FileSystem.Remove, hexists, hperm, if_false]
  exact lookup_filter_ne path fs.files

theorem ReadFile_WriteFile (fs : FileSystem) (path data : String) (hperm : path ∉ fs.denied) :
    (fs.WriteFile path data).1.ReadFile path = some data := by
  simp [FileSystem.WriteFile, hperm, FileSystem.ReadFile, List.lookup_cons]

theorem WriteFile_ok (fs : FileSystem) (path data : String) (hperm : path ∉ fs.denied) :
    (fs.WriteFile path data).2 = none := by
  simp [FileSystem.WriteFile, hperm]

theorem splitNewline_ne_nil (cs : List Char) : splitNewline cs ≠ [] := by
  cases cs with
  | nil => simp [splitNewline]
  | cons c cs =>
    rw [splitNewline]
    by_cases h : c = '\n'
    · simp [h]
    · cases hs : splitNewline cs <;> simp [h]

/-! ## The disconnect run -/

/-- C12. In the disconnect run, once the configuration has loaded, when no correlation
record exists for the user the run ends with exit status 0, sends no request to the
directory service, neither a login nor a session teardown, and leaves the files as they
were. -/
theorem disconnectMain_no_record (rt : Runtime) (inp : DisconnectInput) (fs : FileSystem)
    (cfg : Config) (hname : inp.common_name ≠ "") (hcfg : inp.config = .ok cfg)
    (hnone : fs.ReadFile (sessionFilePath rt cfg inp.common_name) = none) :
    disconnectMain rt inp fs = { status := 0, fs := fs, sent := [] } := by
  simp [disconnectMain, hname, hcfg, hnone]

theorem disconnectMain_no_record_witness :
    disconnectMain tableRuntime ⟨"alice", "2048", "0", .ok legacyConfig⟩ emptyDisk =
      { status := 0, fs := emptyDisk, sent := [] } :=
  disconnectMain_no_record tableRuntime ⟨"alice", "2048", "0", .ok legacyConfig⟩ emptyDisk
    legacyConfig (by decide) rfl (by decide)

/-- C11, as the code has it. In the disconnect run, when a correlation record exists for
the user and the run gets past authentication (always in token mode, in legacy mode when
`Authenticate` succeeds), the run ends with exit status 0 and, whatever the session
teardown returns, the record is gone, provided the operating system lets the file be
removed. -/
theorem disconnectMain_removes_record (rt : Runtime) (inp : DisconnectInput)
    (fs : FileSystem) (cfg : Config) (data : String) (client : Client)
    (hname : inp.common_name ≠ "") (hcfg : inp.config = .ok cfg)
    (hrec : fs.ReadFile (sessionFilePath rt cfg inp.common_name) = some data)
    (hclient : startClient rt cfg.API = (client, none))
    (hperm : sessionFilePath rt cfg inp.common_name ∉ fs.denied) :
    (disconnectMain rt inp fs).status = 0 ∧
      (disconnectMain rt inp fs).fs.ReadFile (sessionFilePath rt cfg inp.common_name) =
        none := by
  have hrm := ReadFile_Remove fs (sessionFilePath rt cfg inp.common_name)
    (by simp [hrec]) hperm
  simp [disconnectMain, hname, hcfg, hrec, splitNewline_ne_nil, hclient, hrm]

theorem disconnectMain_removes_record_witness :
    (disconnectMain tableRuntime ⟨"alice", "2048", "0", .ok tokenConfig⟩
        diskWithRecord).status = 0 ∧
      (disconnectMain tableRuntime ⟨"alice", "2048", "0", .ok tokenConfig⟩
        diskWithRecord).fs.ReadFile
          (sessionFilePath tableRuntime tokenConfig "alice") = none :=
  disconnectMain_removes_record tableRuntime ⟨"alice", "2048", "0", .ok tokenConfig⟩
    diskWithRecord tokenConfig recordOfAlice (NewClient tokenConfig.API) (by decide) rfl
    (by decide) (by decide) (by decide)

/-- C11, as stated, fails. In legacy mode the record of `alice` exists and the login
request fails: the run ends with exit status 0 after the login request alone, and the
record is still on disk. In token mode the teardown fails and the session directory does
not let the file be removed: the record is still on disk as well. -/
theorem disconnectMain_leaves_record :
    disconnectMain tableRuntime ⟨"alice", "2048", "0", .ok legacyConfig⟩ diskWithRecord =
        { status := 0, fs := diskWithRecord
          sent := [(NewClient legacyConfig.API).loginRequest tableRuntime "svc" "pw"] } ∧
      diskWithRecord.ReadFile "/var/run/openvpn/session-alice" = some recordOfAlice ∧
      (disconnectMain tableRuntime ⟨"alice", "2048", "0", .ok tokenConfig⟩
        diskWithLockedRecord).fs.ReadFile "/var/run/openvpn/session-alice" =
          some recordOfAlice := by
  decide

/-! ## The connect run -/

/-- C13, as the code has it. In the connect run, once identity lookup, route fetch and the
write of the push configuration have succeeded, the run ends with exit status 0 whether or
not session creation succeeds. When session creation succeeds the run writes the
correlation record of the user, holding the session id, the client address and the client
port separated by newlines, and the record is on disk afterwards provided the operating
system lets the file be written; a failed write changes nothing. When session creation
fails no record is written: the files are as the write of the push configuration left
them. -/
theorem connectMain_session_record (lib : IPv6Lib) (rt : Runtime) (inp : ConnectInput)
    (fs fs1 : FileSystem) (cfg : Config) (configFile : String) (rest : List String)
    (client : Client) (user : UserResponse) (routes : List Network)
    (hargs : inp.args = configFile :: rest) (hname : inp.common_name ≠ "")
    (hcfg : inp.config = .ok cfg) (hclient : startClient rt cfg.API = (client, none))
    (huser : client.GetUserByUsername rt inp.common_name = .ok user)
    (hroutes : client.GetUserRoutes rt.toEnv user.ID = (routes, none))
    (hwrite : fs.WriteFile configFile (configContent lib user routes) = (fs1, none)) :
    (connectMain lib rt inp fs).status = 0 ∧
      (∀ session : VpnSession,
        client.CreateSession rt user.ID
            (if user.VpnIP ≠ "" then user.VpnIP else inp.ifconfig_pool_remote_ip)
            inp.trusted_ip = .ok session →
          (connectMain lib rt inp fs).fs =
              (fs1.WriteFile (sessionFilePath rt cfg inp.common_name)
                (session.ID ++ "\n" ++ inp.trusted_ip ++ "\n" ++ inp.trusted_port)).1 ∧
            (sessionFilePath rt cfg inp.common_name ∉ fs1.denied →
              (connectMain lib rt inp fs).fs.ReadFile (sessionFilePath rt cfg inp.common_name) =
                some (session.ID ++ "\n" ++ inp.trusted_ip ++ "\n" ++ inp.trusted_port)) ∧
            (sessionFilePath rt cfg inp.common_name ∈ fs1.denied →
              (connectMain lib rt inp fs).fs = fs1)) ∧
      (∀ err : GoError,
        client.CreateSession rt user.ID
            (if user.VpnIP ≠ "" then user.VpnIP else inp.ifconfig_pool_remote_ip)
            inp.trusted_ip = .error err →
          (connectMain lib rt inp fs).fs = fs1) := by
  refine ⟨?_, ?_, ?_⟩
  · cases hs : client.CreateSession rt user.ID
        (if user.VpnIP ≠ "" then user.VpnIP else inp.ifconfig_pool_remote_ip) inp.trusted_ip <;>
      simp only [ne_eq, ite_not] at hs <;>
      simp [connectMain, hargs, hname, hcfg, hclient, huser, hroutes, hwrite, hs]
  · intro session hs
    simp only [ne_eq, ite_not] at hs
    have hfs : (connectMain lib rt inp fs).fs =
        (fs1.WriteFile (sessionFilePath rt cfg inp.common_name)
          (session.ID ++ "\n" ++ inp.trusted_ip ++ "\n" ++ inp.trusted_port)).1 := by
      simp [connectMain, hargs, hname, hcfg, hclient, huser, hroutes, hwrite, hs]
    refine ⟨hfs, fun hperm => ?_, fun hden => ?_⟩
    · rw [hfs]
      exact ReadFile_WriteFile fs1 _ _ hperm
    · rw [hfs]
      simp [FileSystem.WriteFile, hden]
  · intro err hs
    simp only [ne_eq, ite_not] at hs
    simp [connectMain, hargs, hname, hcfg, hclient, huser, hroutes, hwrite, hs]

theorem connectMain_session_record_witness :
    (connectMain ipv4Only tableRuntime
        ⟨["/tmp/ovpn-alice.conf"], "alice", "203.0.113.9", "51000", "10.8.0.77",
          .ok tokenConfig⟩ emptyDisk).status = 0 ∧
      (connectMain ipv4Only tableRuntime
        ⟨["/tmp/ovpn-alice.conf"], "alice", "203.0.113.9", "51000", "10.8.0.77",
          .ok tokenConfig⟩ emptyDisk).fs.ReadFile
          (sessionFilePath tableRuntime tokenConfig "alice") = some recordOfAlice :=
  have h := connectMain_session_record ipv4Only tableRuntime
    ⟨["/tmp/ovpn-alice.conf"], "alice", "203.0.113.9", "51000", "10.8.0.77", .ok tokenConfig⟩
    emptyDisk
    (emptyDisk.WriteFile "/tmp/ovpn-alice.conf"
      (configContent ipv4Only alice [⟨"", "", "::/0", ""⟩])).1
    tokenConfig "/tmp/ovpn-alice.conf" [] (NewClient tokenConfig.API) alice
    [⟨"", "", "::/0", ""⟩] rfl (by decide) rfl (by decide) rfl (by decide) (by decide)
  ⟨h.1, (h.2.1 sessionS1 rfl).2.1 (by decide)⟩

/-- C13, as stated, fails. Identity lookup, route fetch and the write of the push
configuration succeed and so does session creation, but the session directory is missing:
the run ends with exit status 0 and no correlation record is on disk. -/
theorem connectMain_record_not_written :
    (NewClient tokenConfig.API).CreateSession tableRuntime "u1" "10.8.0.2" "203.0.113.9" =
        .ok sessionS1 ∧
      (connectMain ipv4Only tableRuntime
        ⟨["/tmp/ovpn-alice.conf"], "alice", "203.0.113.9", "51000", "10.8.0.77",
          .ok tokenConfig⟩ diskWithoutSessionDir).status = 0 ∧
      (connectMain ipv4Only tableRuntime
        ⟨["/tmp/ovpn-alice.conf"], "alice", "203.0.113.9", "51000", "10.8.0.77",
          .ok tokenConfig⟩ diskWithoutSessionDir).fs.ReadFile
          "/var/run/openvpn/session-alice" = none ∧
      (connectMain ipv4Only tableRuntime
        ⟨["/tmp/ovpn-alice.conf"], "alice", "203.0.113.9", "51000", "10.8.0.77",
          .ok tokenConfig⟩ diskWithoutSessionDir).fs.ReadFile "/tmp/ovpn-alice.conf" =
          some "ifconfig-push 10.8.0.2 255.255.255.0\npush \"redirect-gateway def1\"\n" :=
  ⟨rfl, by decide, by decide, by decide⟩

/-! ## The firewall sync run -/

theorem flatMap_networkOrder (f : String → String → List String → List String)
    {us vs : List UserWithNetworks} (h : List.Forall₂ sameUpToNetworkOrder us vs) :
    us.flatMap (fun u => f u.Username u.VpnIP (sortStrings u.Networks)) =
      vs.flatMap (fun u => f u.Username u.VpnIP (sortStrings u.Networks)) := by
  induction h with
  | nil => rfl
  | cons huv _ ih =>
    obtain ⟨h1, h2, h3⟩ := huv
    simp only [List.flatMap_cons, h1, h2, sortStrings_perm h3, ih]

theorem Firewall_GenerateRules_networkOrder (fw : Firewall) {us vs : List UserWithNetworks}
    (h : List.Forall₂ sameUpToNetworkOrder us vs) :
    fw.GenerateRules us = fw.GenerateRules vs := by
  cases fw with
  | nftables n =>
    simp only [Firewall.GenerateRules, NFTables.GenerateRules, NFTables_GenerateRules_foldl]
    congr 2
    exact flatMap_networkOrder (fun name ip nets =>
      ["# " ++ name ++ "\n",
        "ip saddr " ++ ip ++ " ip daddr \x7b " ++ String.intercalate ", " nets ++
          " \x7d accept\n"]) h
  | iptables i =>
    simp only [Firewall.GenerateRules, IPTables.GenerateRules, IPTables_GenerateRules_foldl]
    congr 3
    exact flatMap_networkOrder (fun name ip nets =>
      ("# " ++ name ++ "\n") :: nets.map (fun network =>
        "-A " ++ i.chainName ++ " -s " ++ ip ++ " -d " ++ network ++ " -j ACCEPT\n")) h

theorem applyRules_unchanged (rt : Runtime) (fw : Firewall) (newRules : String)
    (fs : FileSystem) (hsame : fs.ReadFile fw.GetRulesFile = some newRules) :
    applyRules rt fw false newRules fs = { status := 0, fs := fs, ran := [], stdout := "" } := by
  simp [applyRules, hsame]

theorem applyRules_writes (rt : Runtime) (fw : Firewall) (newRules : String)
    (fs : FileSystem) (hdiff : (fs.ReadFile fw.GetRulesFile).getD "" ≠ newRules)
    (hperm : fw.GetRulesFile ∉ fs.denied) :
    (applyRules rt fw false newRules fs).fs = (fs.WriteFile fw.GetRulesFile newRules).1 ∧
      (applyRules rt fw false newRules fs).ran = [fw.GetReloadCommand] := by
  have hw : fs.WriteFile fw.GetRulesFile newRules =
      ((fs.WriteFile fw.GetRulesFile newRules).1, none) := by
    simp [FileSystem.WriteFile, hperm]
  unfold applyRules
  simp only [Bool.false_eq_true, if_false, hdiff]
  rw [hw]
  cases (rt.runShell fw.GetReloadCommand).2 <;> simp

/-- C14. In the firewall sync run outside dry-run mode, when the bytes of the rules file
equal the freshly compiled text, the run writes no file, runs no reload command and ends
with exit status 0. Hence, after a first run that wrote the rules file, a second run over
an unchanged authorization set (the same users, each with the same networks in any order)
leaves the files as they are and runs no reload command. -/
theorem firewallMain_unchanged_rules (rt : Runtime) (inp : FirewallInput) (cfg : Config)
    (fuel : Nat) (fs : FileSystem) (users : List UserWithNetworks)
    (hcfg : inp.config = .ok cfg) (hdry : inp.dryRun = false)
    (hcollect : collectForSync rt cfg fuel = some (.ok users)) :
    (fs.ReadFile (New cfg.Firewall).GetRulesFile =
          some ((New cfg.Firewall).GenerateRules users) →
        firewallMain rt inp fuel fs =
          some { status := 0, fs := fs, ran := [], stdout := "" }) ∧
      ((fs.ReadFile (New cfg.Firewall).GetRulesFile).getD "" ≠
          (New cfg.Firewall).GenerateRules users →
        (New cfg.Firewall).GetRulesFile ∉ fs.denied →
        ∃ o1 : FirewallOutcome, firewallMain rt inp fuel fs = some o1 ∧
          o1.fs.ReadFile (New cfg.Firewall).GetRulesFile =
            some ((New cfg.Firewall).GenerateRules users) ∧
          o1.ran = [(New cfg.Firewall).GetReloadCommand] ∧
          ∀ (rt2 : Runtime) (fuel2 : Nat) (users2 : List UserWithNetworks),
            collectForSync rt2 cfg fuel2 = some (.ok users2) →
            List.Forall₂ sameUpToNetworkOrder users users2 →
            firewallMain rt2 inp fuel2 o1.fs =
              some { status := 0, fs := o1.fs, ran := [], stdout := "" }) := by
  have hmain : ∀ (r : Runtime) (f : Nat) (us : List UserWithNetworks) (d : FileSystem),
      collectForSync r cfg f = some (.ok us) →
      firewallMain r inp f d =
        some (applyRules r (New cfg.Firewall) false ((New cfg.Firewall).GenerateRules us) d) := by
    intro r f us d hc
    simp [firewallMain, hcfg, hc, hdry]
  constructor
  · intro hsame
    rw [hmain rt fuel users fs hcollect, applyRules_unchanged rt _ _ fs hsame]
  · intro hdiff hperm
    obtain ⟨hfs, hran⟩ := applyRules_writes rt (New cfg.Firewall) _ fs hdiff hperm
    have hread : (applyRules rt (New cfg.Firewall) false
        ((New cfg.Firewall).GenerateRules users) fs).fs.ReadFile
          (New cfg.Firewall).GetRulesFile = some ((New cfg.Firewall).GenerateRules users) := by
      rw [hfs]
      exact ReadFile_WriteFile fs _ _ hperm
    refine ⟨_, hmain rt fuel users fs hcollect, hread, hran, ?_⟩
    intro rt2 fuel2 users2 hc2 hsameUsers
    rw [hmain rt2 fuel2 users2 _ hc2]
    apply congrArg some
    apply applyRules_unchanged
    rw [← Firewall_GenerateRules_networkOrder (New cfg.Firewall) hsameUsers]
    exact hread

theorem firewallMain_unchanged_rules_witness :
    ∃ o1 : FirewallOutcome, firewallMain tableRuntime ⟨false, .ok tokenConfig⟩ 1 emptyDisk =
        some o1 ∧
      o1.fs.ReadFile (New tokenConfig.Firewall).GetRulesFile =
        some ((New tokenConfig.Firewall).GenerateRules
          [⟨"alice", "10.8.0.2", ["::/0"]⟩, ⟨"bob", "10.8.0.3", ["10.0.0.0/8", "::/0"]⟩]) ∧
      o1.ran = [(New tokenConfig.Firewall).GetReloadCommand] ∧
      ∀ (rt2 : Runtime) (fuel2 : Nat) (users2 : List UserWithNetworks),
        collectForSync rt2 tokenConfig fuel2 = some (.ok users2) →
        List.Forall₂ sameUpToNetworkOrder
          [⟨"alice", "10.8.0.2", ["::/0"]⟩, ⟨"bob", "10.8.0.3", ["10.0.0.0/8", "::/0"]⟩]
          users2 →
        firewallMain rt2 ⟨false, .ok tokenConfig⟩ fuel2 o1.fs =
          some { status := 0, fs := o1.fs, ran := [], stdout := "" } :=
  (firewallMain_unchanged_rules tableRuntime ⟨false, .ok tokenConfig⟩ tokenConfig 1 emptyDisk
    [⟨"alice", "10.8.0.2", ["::/0"]⟩, ⟨"bob", "10.8.0.3", ["10.0.0.0/8", "::/0"]⟩]
    rfl rfl rfl).2 (by decide) (by decide)

end OpenVPNClient
